import Mathlib

/-!
Verification of the Kotlin Gazelle extension (build-file generator) of this
repository: a shallow embedding, in Lean 4, of the import-resolution engine
(`gazelle/kotlin/resolver.go`), the identifier value type
(`gazelle/kotlin/parser/parser.go`), the per-directory target classifier and
rule emission (`GenerateRules` and friends), and the configuration type
(`gazelle/kotlin/kotlinconfig/config.go`), together with theorems about the
claims of the specification.

Modelling conventions:
  * Go strings are modelled as Lean `String`, compared character-wise
    (`String.data`); Go's byte-level indexing only ever occurs here at
    ASCII suffixes, where bytes and characters coincide.
  * Go maps keyed by string are modelled as association lists with
    overwrite-on-insert (last write wins), matching the key/value behaviour
    the code relies on; iteration order of maps is abstracted by taking the
    association list's order where the Go code sorts afterwards anyway.
  * Fallible Go code (`error` results, `panic`, `log.Fatalf`/`os.Exit`)
    is modelled with `Except String`.
  * External collaborators (the gazelle rule index, override directives,
    the maven resolver, the Java stdlib predicate) are passed in as an
    explicit environment record, following the spec's external-interface
    contracts (spec section 6).
-/

namespace gostrings

/-- Models Go `strings.HasSuffix s suffix` (character-wise). -/
def HasSuffix (s suffix : String) : Bool :=
  decide (suffix.data <:+ s.data)

/-- Models Go `strings.StartsWith` semantics, i.e. `strings.HasPrefix s pre`
(character-wise). -/
def StartsWith (s pre : String) : Bool :=
  decide (pre.data <+: s.data)

/-- Models Go `strings.TrimSuffix s suffix`: drops `suffix` from the end of
`s` when present, otherwise returns `s` unchanged. -/
def TrimSuffix (s suffix : String) : String :=
  if HasSuffix s suffix then ⟨s.data.take (s.data.length - suffix.data.length)⟩ else s

/-- Models Go `strings.Join elems sep`. -/
def Join (elems : List String) (sep : String) : String :=
  match elems with
  | [] => ""
  | [s] => s
  | s :: rest => s ++ sep ++ Join rest sep

/-- Models Go `strings.ToLower` (character-wise `Char.toLower`). -/
def ToLower (s : String) : String :=
  ⟨s.data.map Char.toLower⟩

end gostrings

namespace gopath

/-- Split a character list at a separator character (the groups between
separators, in order; used to model slash-separated path components). -/
def splitOnChar (sep : Char) : List Char → List (List Char)
  | [] => [[]]
  | c :: cs =>
    match splitOnChar sep cs with
    | [] => [[c]]
    | g :: gs => if c == sep then [] :: g :: gs else (c :: g) :: gs

/-- Models Go `filepath.Base`/`path.Base` for the slash-separated relative
paths the generator traffics in: the last non-empty slash-separated
component, or `"."` for an empty or component-free path. -/
def FilepathBase (p : String) : String :=
  match ((splitOnChar '/' p.data).filter (fun g => !g.isEmpty)).getLast? with
  | some g => ⟨g⟩
  | none => "."

/-- Models Go `path.Ext p`: the suffix of the final path element starting at
its final dot, or `""` when the final element has no dot. -/
def Ext (p : String) : String :=
  let rev := p.data.reverse
  match rev.findIdx? (fun c => c == '.' || c == '/') with
  | some i => if rev.get? i = some '.' then ⟨(rev.take (i + 1)).reverse⟩ else ""
  | none => ""

end gopath

namespace gosort

/-- Insert into a run kept ordered by the boolean comparator `le`. -/
def orderedInsert {α : Type} (le : α → α → Bool) (x : α) : List α → List α
  | [] => [x]
  | y :: ys => if le x y then x :: y :: ys else y :: orderedInsert le x ys

/-- Sorting by a boolean comparator. The Go code sorts with `sort.Slice` /
`slices.SortedFunc`; any sort realises the same contract (a permutation of
the input that is pairwise ordered by the comparator), and an insertion sort
keeps the embedding executable by the kernel. -/
def sortLe {α : Type} (le : α → α → Bool) : List α → List α
  | [] => []
  | x :: xs => orderedInsert le x (sortLe le xs)

end gosort

namespace gostrings

/-- Lexicographic strict order on character lists: models the Go string
order (`<`, `strings.Compare`) character-wise. -/
def LtList : List Char → List Char → Bool
  | [], [] => false
  | [], _ :: _ => true
  | _ :: _, [] => false
  | a :: as, b :: bs =>
    if a.toNat < b.toNat then true
    else if b.toNat < a.toNat then false
    else LtList as bs

/-- Models Go string `s < t`. -/
def Lt (s t : String) : Bool := LtList s.data t.data

/-- Models Go string `s <= t` (the sort comparators below are phrased with
it; `sort.Slice` with a strict `less` sorts exactly by this reflexive
closure). -/
def Le (s t : String) : Bool := !(Lt t s)

end gostrings

namespace parser

/-- Embeds `SimpleIdentiifer` (the source's spelling) from
`gazelle/kotlin/parser/parser.go`: one dot-free name component, wrapping its
literal text. -/
structure SimpleIdentiifer where
  literal : String
deriving DecidableEq

/-- Embeds `SimpleIdentiifer.Literal()`. -/
def SimpleIdentiifer.Literal (si : SimpleIdentiifer) : String :=
  si.literal

/-- Embeds `Identifier` from `gazelle/kotlin/parser/parser.go`: a parsed
Kotlin identifier as its list of dot-delimited components. -/
structure Identifier where
  parts : List SimpleIdentiifer
deriving DecidableEq

/-- Embeds `Identifier.Parent()`: the identifier with the last dot-delimited
component removed, or `none` (Go `nil`) when at most one component remains. -/
def Identifier.Parent (i : Identifier) : Option Identifier :=
  if i.parts.length ≤ 1 then none
  else some ⟨i.parts.dropLast⟩

/-- Embeds `Identifier.Literal()`: the dot-joined components. -/
def Identifier.Literal (i : Identifier) : String :=
  gostrings.Join (i.parts.map SimpleIdentiifer.Literal) "."

/-- Embeds `Identifier.Child(childComponent)`: this identifier with one more
component appended (a fresh value; identifiers are immutable). -/
def Identifier.Child (i : Identifier) (childComponent : SimpleIdentiifer) : Identifier :=
  ⟨i.parts ++ [childComponent]⟩

/-- The start character class of `kotlinUnquotedIdentifierRegexp`, which is
`(Letter | underscore)`. The source's character class is Unicode `\p` `L`;
this embedding works over the alphabetic-character fragment (`Char.isAlpha`),
which covers every literal the repository and its tests exercise. -/
def isIdentStartChar (c : Char) : Bool :=
  c.isAlpha || c == '_'

/-- The continuation character class of `kotlinUnquotedIdentifierRegexp`:
`(Letter | underscore | UnicodeDigit)`. -/
def isIdentContinueChar (c : Char) : Bool :=
  isIdentStartChar c || c.isDigit

/-- Embeds `kotlinUnquotedIdentifierRegexp.MatchString(s)`. Go's
`Regexp.MatchString` is UNANCHORED: it reports whether the string CONTAINS
a match of the pattern anywhere, not whether the whole string matches.
A single start-class character is already a complete match of the pattern
(the starred continuation may be empty), and every match begins with a
start-class character, so containment of a match is equivalent to the
existence of a start-class character in the string. -/
def kotlinUnquotedIdentifierRegexpMatchString (s : String) : Bool :=
  s.data.any isIdentStartChar

/-- Embeds `NewSimpleIdentifier(value)` from
`gazelle/kotlin/parser/parser.go`: wraps the value when the regexp reports a
match, otherwise returns the error (Go `(nil, err)`). -/
def NewSimpleIdentifier (value : String) : Except String SimpleIdentiifer :=
  if kotlinUnquotedIdentifierRegexpMatchString value then .ok ⟨value⟩
  else .error ("NewSimpleIdentifier only supports identifiers that match [\\p\x7bL\x7d_][\\p\x7bL\x7d_\\d]*; " ++ value ++ " doesn't match")

/-- Helper for `specSimpleIdentifierGrammar` over the character list. -/
def specSimpleIdentifierGrammarList : List Char → Bool
  | [] => false
  | c :: cs => isIdentStartChar c && cs.all isIdentContinueChar

/-- Written from the spec's words, for comparison with `NewSimpleIdentifier`
(claim C8): the WHOLE string is an identifier — non-empty, a letter or
underscore followed by letters, underscores, or digits, and nothing else. -/
def specSimpleIdentifierGrammar (s : String) : Bool :=
  specSimpleIdentifierGrammarList s.data

/-- Embeds `ImportStatement` from `gazelle/kotlin/parser/parser.go`: one
parsed `importHeader` (identifier, star-import flag, optional alias). -/
structure ImportStatement where
  identifier : Identifier
  isStarImport : Bool
  importAlias : Option SimpleIdentiifer
deriving DecidableEq

/-- Embeds the `ImportStatement.Identifier()` accessor. -/
def ImportStatement.Identifier (i : ImportStatement) : Identifier :=
  i.identifier

/-- Embeds `ImportStatement.String()`: alias form, star form, or the bare
literal. -/
def ImportStatement.String (i : ImportStatement) : String :=
  match i.importAlias with
  | some a => i.identifier.Literal ++ " as " ++ a.Literal
  | none =>
    if i.isStarImport then i.identifier.Literal ++ ".*"
    else i.identifier.Literal

/-- Embeds `ParseResult` from `gazelle/kotlin/parser/parser.go`: the
per-file record of parsed facts (path, imports, optional package
declaration, entry-point flag). -/
structure ParseResult where
  File : String
  Imports : List ImportStatement
  Package : Option Identifier
  HasMain : Bool
deriving DecidableEq

end parser

namespace kotlinconfig

/-- Embeds `KotlinConfig` from `gazelle/kotlin/kotlinconfig/config.go`,
restricted to the fields the generator consults per directory (the parent
back-pointer, `rel`, and the wrapped Java config do not influence the
claims' code paths). -/
structure KotlinConfig where
  testFileSuffixes : List String
  generationEnabled : Bool
deriving DecidableEq

/-- Embeds `kotlinconfig.New(repoRoot)`: generation enabled, test suffixes
`["Test.kt"]`. -/
def New : KotlinConfig :=
  { testFileSuffixes := ["Test.kt"], generationEnabled := true }

/-- Embeds `KotlinConfig.GenerationEnabled()`. -/
def KotlinConfig.GenerationEnabled (c : KotlinConfig) : Bool :=
  c.generationEnabled

/-- Embeds `KotlinConfig.IsTestBaseName(baseName)`: true when some
configured suffix ends the basename. -/
def KotlinConfig.IsTestBaseName (c : KotlinConfig) (baseName : String) : Bool :=
  c.testFileSuffixes.any (fun suffix => gostrings.HasSuffix baseName suffix)

end kotlinconfig

namespace gazelle

/-- Embeds `LanguageName` from `gazelle/kotlin/language.go`. -/
def LanguageName : String := "kotlin"

/-- Embeds the `kt_jvm_library` rule-kind name from `gazelle/kotlin/language.go`. -/
def KtJvmLibrary : String := "kt_jvm_library"

/-- Embeds the `kt_jvm_binary` rule-kind name from `gazelle/kotlin/language.go`. -/
def KtJvmBinary : String := "kt_jvm_binary"

/-- Embeds the `kt_jvm_test` rule-kind name from `gazelle/kotlin/language.go`. -/
def KtJvmTest : String := "kt_jvm_test"

/-- A gazelle build label (`label.Label`), identified by its string form
(`Label.String()`), which is all the resolver code under verification
inspects. -/
def Label := String
deriving DecidableEq

/-- The string form of a label; `label.Label.String()` on this
representation is the identity. -/
def Label.String (l : Label) : String := l

/-- Embeds one element of the list returned by
`ix.FindRulesByImportWithConfig` (`resolve.FindResult`, an external
collaborator). The spec's Index contract is
`FindProviders(identifier-literal, language) -> list of (buildReference,
isSelfImport)`; `isSelfImportOfFrom` records `result.IsSelfImport(fromLabel)`
for the consuming target of the resolution at hand. -/
structure FindResult where
  label : Label
  isSelfImportOfFrom : Bool
deriving DecidableEq

/-- Embeds the resolution-type constants of `gazelle/kotlin/resolver.go`
(`Resolution_Error = -1` through `Resolution_NativeKotlin = 3`). -/
inductive ResolutionType where
  | Resolution_Error
  | Resolution_None
  | Resolution_NotFound
  | Resolution_Label
  | Resolution_NativeKotlin
deriving DecidableEq

/-- The triple returned by `resolveImport`:
`(ResolutionType, *label.Label, error)`. -/
structure ResolveResult where
  rtype : ResolutionType
  label : Option Label
  err : Option String
deriving DecidableEq

/-- The external collaborators consulted by `resolveImport`, per the spec's
external-interface contracts (spec section 6):
`resolve.FindRuleWithOverride` keyed by identifier literal,
`ix.FindRulesByImportWithConfig` keyed by identifier literal, the Java
standard-library predicate injected into `IsNativeImport`
(`jvm_java.IsStdlib`), and the optional maven resolver `kt.mavenResolver`
(with the directory configuration's excluded artifacts and repository name
already applied, as `Resolve` receives them from `cfg`). -/
structure ResolveEnv where
  findRuleWithOverride : String → Option Label
  findRulesByImportWithConfig : String → List FindResult
  javaIsStdlib : String → Bool
  mavenResolver : Option (String → Except String Label)

/-- Embeds `IsNativeImport` from `gazelle/kotlin/kotlin.go`: `kotlin.` /
`kotlinx.` literals, then the injected Java stdlib predicate. -/
def IsNativeImport (javaIsStdlib : String → Bool) (impt : String) : Bool :=
  if gostrings.StartsWith impt "kotlin." || gostrings.StartsWith impt "kotlinx." then true
  else if javaIsStdlib impt then true
  else false

/-- Embeds `targetListFromResults` from `gazelle/kotlin/resolver.go`: the
human-readable comma-separated list of every result's target label. -/
def targetListFromResults (results : List FindResult) : String :=
  gostrings.Join (results.map (fun result => result.label.String)) ", "

/-- The error string built by the ambiguity branch of `resolveImport`
(`fmt.Errorf("Importing identifier %q (from %s) resolved to multiple
targets (%s) - ...")`). -/
def ambiguousResolutionError (identifier : parser.Identifier)
    (importContext : String) (results : List FindResult) : String :=
  "Importing identifier \"" ++ identifier.Literal ++ "\" (from " ++ importContext
    ++ ") resolved to multiple targets (" ++ targetListFromResults results
    ++ ") - this must be fixed using the \"gazelle:resolve\" directive"

/-- The maven step of `resolveImport`: when a resolver is configured and
succeeds return its label; a resolver error is logged at debug severity and
swallowed (treated as no match). -/
def mavenStep (env : ResolveEnv) (identifier : parser.Identifier) : Option Label :=
  match env.mavenResolver with
  | none => none
  | some mavenResolve =>
    match mavenResolve identifier.Literal with
    | .ok l => some l
    | .error _ => none

/-- Embeds `resolveImport` from `gazelle/kotlin/resolver.go`. The Go
function recurses on `identifier.Parent()`, which strictly shrinks the
component list, so the recursion is run here on a structural `Nat` measure
equal to the component count; `resolveImport` below instantiates the
measure with `identifier.parts.length`, under which the zero-measure
parent branch is unreachable (a parent only exists when at least two
components remain). Step order, as in the source: override, index lookup
(with self-import filtering, the ambiguity error over ALL matches, and the
all-self `Resolution_None` case), native Kotlin/Java check, maven lookup,
then the parent walk-up. -/
def resolveImportFuel (env : ResolveEnv) (fromLabel : Label)
    (importContext : String) : Nat → parser.Identifier → ResolveResult
  | fuel, identifier =>
    match env.findRuleWithOverride identifier.Literal with
    | some override => ⟨.Resolution_Label, some override, none⟩
    | none =>
      let matchResults := env.findRulesByImportWithConfig identifier.Literal
      if 0 < matchResults.length then
        let filteredMatches :=
          (matchResults.filter (fun m => !m.isSelfImportOfFrom)).map (fun m => m.label)
        if 1 < filteredMatches.length then
          ⟨.Resolution_Error, none, some (ambiguousResolutionError identifier importContext matchResults)⟩
        else
          match filteredMatches with
          | [] => ⟨.Resolution_None, none, none⟩
          | m :: _ => ⟨.Resolution_Label, some m, none⟩
      else if IsNativeImport env.javaIsStdlib identifier.Literal then
        ⟨.Resolution_NativeKotlin, none, none⟩
      else
        match mavenStep env identifier with
        | some l => ⟨.Resolution_Label, some l, none⟩
        | none =>
          match identifier.Parent, fuel with
          | none, _ => ⟨.Resolution_NotFound, none, none⟩
          | some importParent, fuel' + 1 =>
            resolveImportFuel env fromLabel importContext fuel' importParent
          | some _, 0 => ⟨.Resolution_NotFound, none, none⟩

/-- `resolveImport(c, ix, identifier, fromLabel, importContext)`: the fueled
recursion at its actual depth bound, the identifier's component count. -/
def resolveImport (env : ResolveEnv) (identifier : parser.Identifier)
    (fromLabel : Label) (importContext : String) : ResolveResult :=
  resolveImportFuel env fromLabel importContext identifier.parts.length identifier

/-- One resolution step failing all four short-circuiting checks of
`resolveImport` (no override, empty index lookup, not native, no maven
match): exactly the condition under which the source falls through to the
parent walk-up. -/
def resolutionStepsFail (env : ResolveEnv) (identifier : parser.Identifier) : Prop :=
  env.findRuleWithOverride identifier.Literal = none ∧
  env.findRulesByImportWithConfig identifier.Literal = [] ∧
  IsNativeImport env.javaIsStdlib identifier.Literal = false ∧
  mavenStep env identifier = none

instance (env : ResolveEnv) (identifier : parser.Identifier) :
    Decidable (resolutionStepsFail env identifier) := by
  unfold resolutionStepsFail
  infer_instance

end gazelle

namespace gazelle

/-- Embeds `ImportStatement` from the gazelle package (the resolver-level
wrapper): the path of the source file containing the import plus the
parsed import header. -/
structure ImportStatement where
  SourcePath : String
  ImportHeader : parser.ImportStatement
deriving DecidableEq

/-- The `importContext` closure built in `resolveImports` for one import:
`"the %q import statement in %q"` over the header's string form and the
source path. -/
def importContextFor (impt : ImportStatement) : String :=
  "the \"" ++ impt.ImportHeader.String ++ "\" import statement in \"" ++ impt.SourcePath ++ "\""

/-- The diagnostic printed by `resolveImports` for a `Resolution_NotFound`
result (the `notFound` error formatted to stdout). -/
def notFoundDiagnostic (impt : ImportStatement) : String :=
  "Import \"" ++ impt.ImportHeader.String ++ "\" from \"" ++ impt.SourcePath
    ++ "\" is an unknown dependency. Possible solutions:\n"
    ++ "\t1. Instruct Gazelle to resolve to a known dependency using a directive:\n"
    ++ "\t\t# gazelle:resolve [src-lang] kotlin import-string label\n"

/-- Modelled from the spec: `common.LabelSet` lives in `gazelle/common`,
which is not under `src/`. The spec's batch contract says the dependency
references accumulate "into a deduplicated, from-target-excluding set";
`NewLabelSet(from)` records the owning target and `Add` inserts a label
unless it equals the from-label or is already present. -/
structure LabelSet where
  fromLabel : Label
  labels : List Label
deriving DecidableEq

/-- Modelled from the spec: `common.NewLabelSet(from)` — the empty set for
a consuming target. -/
def NewLabelSet (fromLabel : Label) : LabelSet :=
  ⟨fromLabel, []⟩

/-- Modelled from the spec: `LabelSet.Add` — dedup and self-exclusion. -/
def LabelSet.Add (s : LabelSet) (l : Label) : LabelSet :=
  if l = s.fromLabel then s
  else if s.labels.contains l then s
  else ⟨s.fromLabel, s.labels ++ [l]⟩

/-- Whether this set has no labels (`LabelSet.Empty()`). -/
def LabelSet.Empty (s : LabelSet) : Bool :=
  s.labels.isEmpty

/-- Embeds the loop body of `resolveImports` from
`gazelle/kotlin/resolver.go`, threading the accumulated dependency set and
the diagnostics printed so far (the `fmt.Printf` stream, modelled as a
list). Per iteration: a resolution error aborts the whole batch
immediately; `Resolution_NotFound` appends the not-found diagnostic and
continues; `Resolution_NativeKotlin` and `Resolution_None` continue without
effect; a non-nil dependency label is added to the set. -/
def resolveImportsLoop (env : ResolveEnv) (fromLabel : Label) :
    List ImportStatement → LabelSet → List String → Except String (LabelSet × List String)
  | [], deps, diagnostics => .ok (deps, diagnostics)
  | impt :: rest, deps, diagnostics =>
    let r := resolveImport env impt.ImportHeader.Identifier fromLabel (importContextFor impt)
    match r.err with
    | some e => .error e
    | none =>
      if r.rtype = .Resolution_NotFound then
        resolveImportsLoop env fromLabel rest deps (diagnostics ++ [notFoundDiagnostic impt])
      else if r.rtype = .Resolution_NativeKotlin ∨ r.rtype = .Resolution_None then
        resolveImportsLoop env fromLabel rest deps diagnostics
      else
        match r.label with
        | some dep => resolveImportsLoop env fromLabel rest (deps.Add dep) diagnostics
        | none => resolveImportsLoop env fromLabel rest deps diagnostics

/-- Embeds `resolveImports(c, ix, imports, from)`: start from the empty
label set for `from` and no diagnostics. The Go parameter is an
`iter.Seq[*ImportStatement]` over the target's aggregated import map; the
sequence is modelled as the list of its elements in iteration order. -/
def resolveImports (env : ResolveEnv) (fromLabel : Label)
    (imports : List ImportStatement) : Except String (LabelSet × List String) :=
  resolveImportsLoop env fromLabel imports (NewLabelSet fromLabel) []

end gazelle

namespace gazelle

/-- Embeds `KotlinTarget` from `gazelle/kotlin/kotlin.go`: the import
aggregate shared by all target kinds. Go's `map[string]*ImportStatement`
keyed by the import identifier's literal is modelled as an association
list with overwrite-on-insert (last write wins, as in Go). -/
structure KotlinTarget where
  Imports : List (String × ImportStatement)
deriving DecidableEq

/-- Embeds `KotlinTarget.addImport`: store the import under its
identifier literal, replacing any previous entry for the same literal. -/
def KotlinTarget.addImport (t : KotlinTarget) (impt : ImportStatement) : KotlinTarget :=
  let key := impt.ImportHeader.Identifier.Literal
  ⟨(t.Imports.filter (fun kv => !(kv.1 = key))) ++ [(key, impt)]⟩

/-- Embeds `KotlinLibTarget` from `gazelle/kotlin/kotlin.go` (Go struct
embedding becomes `extends`): the directory's library aggregate. `Packages`
models `map[string]*parser.Identifier` keyed by the package literal and
`Files` models the `map[string]struct{}` file set (insertion order kept). -/
structure KotlinLibTarget extends KotlinTarget where
  Packages : List (String × parser.Identifier)
  Files : List String
deriving DecidableEq

/-- Embeds `NewKotlinLibTarget()`. -/
def NewKotlinLibTarget : KotlinLibTarget :=
  ⟨⟨[]⟩, [], []⟩

/-- Embeds `KotlinLibTarget.addFile` (set insertion). -/
def KotlinLibTarget.addFile (t : KotlinLibTarget) (file : String) : KotlinLibTarget :=
  { t with Files := if t.Files.contains file then t.Files else t.Files ++ [file] }

/-- Embeds `KotlinLibTarget.addPackage` (map insertion keyed by the
package literal). -/
def KotlinLibTarget.addPackage (t : KotlinLibTarget) (pkg : parser.Identifier) : KotlinLibTarget :=
  { t with Packages := (t.Packages.filter (fun kv => !(kv.1 = pkg.Literal))) ++ [(pkg.Literal, pkg)] }

/-- Embeds `KotlinBinTarget` from `gazelle/kotlin/kotlin.go`: one file with
an entry point, its optional package, its own import aggregate. -/
structure KotlinBinTarget extends KotlinTarget where
  File : String
  Package : Option parser.Identifier
deriving DecidableEq

/-- Embeds `NewKotlinBinTarget(file, pkg)`. -/
def NewKotlinBinTarget (file : String) (pkg : Option parser.Identifier) : KotlinBinTarget :=
  ⟨⟨[]⟩, file, pkg⟩

/-- Modelled from the spec: `KotlinTestTarget` and `NewKotlinTestTarget`
are referenced by `GenerateRules`, `addTestRule` and `Resolve` but their
declaration is not under `src/`. Per the spec's Target data model, a Test
target is "one-or-more files matching a test-suffix naming convention, one
rule, plus an implicit dependency on the library target in the same
directory providing its declared package"; the fields follow the call
sites: `NewKotlinTestTarget([]string{p.File}, p.Package, guessClassName(p))`
with `Files`, `Package` and `TestClass` read back by `addTestRule` and
`Resolve`. -/
structure KotlinTestTarget extends KotlinTarget where
  Files : List String
  Package : Option parser.Identifier
  TestClass : Option parser.Identifier
deriving DecidableEq

/-- Modelled from the spec: the `NewKotlinTestTarget` constructor (not
under `src/`), filling the fields in call-site order with an empty import
aggregate like the other target constructors. -/
def NewKotlinTestTarget (files : List String) (pkg : Option parser.Identifier)
    (testClass : Option parser.Identifier) : KotlinTestTarget :=
  ⟨⟨[]⟩, files, pkg, testClass⟩

/-- The import-transfer loop of `GenerateRules`: every import statement of
the parsed file is added to the owning target's aggregate, wrapped with its
source path. -/
def addImportsOf (t : KotlinTarget) (p : parser.ParseResult) : KotlinTarget :=
  p.Imports.foldl (fun acc impt => acc.addImport ⟨p.File, impt⟩) t

/-- The Go panic value raised by dereferencing a nil pointer, as
`p.Package.Child(id)` does in `guessClassName` when the parse result has no
package declaration. Panics are modelled as `Except.error`. -/
def goNilPointerPanic : String :=
  "runtime error: invalid memory address or nil pointer dereference"

/-- Embeds `guessClassName(p)` (in the `GenerateRules` file of the gazelle
package): the basename is stripped of `.kt` and validated by
`NewSimpleIdentifier`; on validation failure the function returns `nil`
(no class); otherwise it calls `p.Package.Child(id)`, which dereferences a
nil `*Identifier` receiver — a Go runtime panic — whenever the file
declares no package. -/
def guessClassName (p : parser.ParseResult) : Except String (Option parser.Identifier) :=
  match parser.NewSimpleIdentifier (gostrings.TrimSuffix (gopath.FilepathBase p.File) ".kt") with
  | .error _ => .ok none
  | .ok id =>
    match p.Package with
    | none => .error goNilPointerPanic
    | some pkg => .ok (some (pkg.Child id))

/-- The mutable state of the parse loop in `GenerateRules`: the single
library aggregate, the binary targets keyed by file
(`map[string]*KotlinBinTarget`), and the test-target list. -/
structure GenState where
  libTarget : KotlinLibTarget
  binTargets : List (String × KotlinBinTarget)
  testTargets : List KotlinTestTarget
deriving DecidableEq

/-- The state at the top of `GenerateRules`: fresh library target, no
binaries, no tests. -/
def initialGenState : GenState :=
  ⟨NewKotlinLibTarget, [], []⟩

/-- Embeds one iteration of the parse-result loop of `GenerateRules`
(classification): a basename matching a configured test suffix makes a
Test target (evaluating `guessClassName`, whose nil-package panic
propagates); otherwise a parsed entry point makes a Binary target keyed by
file; otherwise the file and its optional package fold into the library
aggregate. In every branch the file's imports are added to the owning
target. -/
def classifyParsedFile (cfg : kotlinconfig.KotlinConfig) (st : GenState)
    (p : parser.ParseResult) : Except String GenState :=
  if cfg.IsTestBaseName (gopath.FilepathBase p.File) then
    match guessClassName p with
    | .error e => .error e
    | .ok cls =>
      let testTarget := NewKotlinTestTarget [p.File] p.Package cls
      let testTarget := { testTarget with toKotlinTarget := addImportsOf testTarget.toKotlinTarget p }
      .ok { st with testTargets := st.testTargets ++ [testTarget] }
  else if p.HasMain then
    let binTarget := NewKotlinBinTarget p.File p.Package
    let binTarget := { binTarget with toKotlinTarget := addImportsOf binTarget.toKotlinTarget p }
    .ok { st with binTargets := (st.binTargets.filter (fun kv => !(kv.1 = p.File))) ++ [(p.File, binTarget)] }
  else
    let lib := st.libTarget.addFile p.File
    let lib :=
      match p.Package with
      | some pkg => lib.addPackage pkg
      | none => lib
    let lib := { lib with toKotlinTarget := addImportsOf lib.toKotlinTarget p }
    .ok { st with libTarget := lib }

/-- The whole parse-result loop of `GenerateRules` over the directory's
parsed files (the parallel parse stage delivers them in arrival order; the
fold is over that order). -/
def classifyParsedFiles (cfg : kotlinconfig.KotlinConfig)
    (parses : List parser.ParseResult) : Except String GenState :=
  parses.foldlM (classifyParsedFile cfg) initialGenState

end gazelle

namespace gazelle

/-- The per-rule private-attribute payload stored under `packagesKey`
(`"_kotlin_package"`): the owning target aggregate. In Go this is an
`interface{}` that `Imports` type-switches on; here it is a sum over the
three target kinds. -/
inductive TargetAttr where
  | lib (target : KotlinLibTarget)
  | bin (target : KotlinBinTarget)
  | test (target : KotlinTestTarget)
deriving DecidableEq

/-- Embeds the slice of `rule.Rule` (external object model) that the
generator reads and writes: kind, name, the attributes this code sets
(`srcs`, `main_class`, `test_class`, `testonly`), and the private
`packagesKey` attribute. -/
structure Rule where
  kind : String
  name : String
  srcs : List String
  main_class : Option String
  test_class : Option String
  testonly : Bool
  privateAttr : Option TargetAttr
deriving DecidableEq

/-- Embeds `rule.NewRule(kind, name)`: a rule with no attributes set. -/
def NewRule (kind name : String) : Rule :=
  ⟨kind, name, [], none, none, false, none⟩

/-- Embeds `rule.File` (external object model) as far as the generator
reads it: the list of rules already present in the directory's build
file. -/
structure RuleFile where
  Rules : List Rule
deriving DecidableEq

/-- Embeds the slice of `language.GenerateArgs` that the generator
consults after parsing: the existing build file (`args.File`, `nil` when
the directory has none) and the directory's default target name (computed
by `gazelle/common.ToDefaultTargetName(args, "root")`, a helper not under
`src/`, abstracted here as a field). -/
structure GenerateArgs where
  File : Option RuleFile
  defaultTargetName : String
deriving DecidableEq

/-- Embeds `language.GenerateResult` as far as the generator writes it:
generated rules, their parallel import payloads (`result.Imports`, the
value later handed back to `Resolve`), and deletion markers
(`result.Empty`). -/
structure GenerateResult where
  Gen : List Rule
  Imports : List TargetAttr
  Empty : List Rule
deriving DecidableEq

/-- Modelled from the spec: `gazelle/common.CheckCollisionErrors` is not
under `src/`. Per the spec's error taxonomy, "(d) Configuration/collision
error (two different rule kinds claim the same output name) — fatal before
any rule is written": report an error when the existing build file already
has a rule of the same name whose kind differs from the kind being
generated (the `sourceRuleKinds` the real helper receives also describe
generated kinds; only the same-name-different-kind case matters to the
claims below). -/
def CheckCollisionErrors (targetName kind : String) (file : Option RuleFile) : Option String :=
  match file with
  | none => none
  | some f =>
    if f.Rules.any (fun r => r.name = targetName && !(r.kind = kind)) then
      some ("a rule named " ++ targetName ++ " already exists and is not a " ++ kind)
    else none

/-- Embeds `toBinaryTargetName(mainFile)` from `gazelle/kotlin/kotlin.go`:
the lower-cased extension-less basename plus `_bin`. -/
def toBinaryTargetName (mainFile : String) : String :=
  gostrings.ToLower (gostrings.TrimSuffix (gopath.FilepathBase mainFile) (gopath.Ext mainFile)) ++ "_bin"

/-- Modelled from the spec: `toTestTargetName` is called by `GenerateRules`
but not declared under `src/`, and the spec does not fix test-target
naming; mirrored from `toBinaryTargetName` with a `_test` suffix. No claim
depends on the exact name produced. -/
def toTestTargetName (mainFile : String) : String :=
  gostrings.ToLower (gostrings.TrimSuffix (gopath.FilepathBase mainFile) (gopath.Ext mainFile)) ++ "_test"

/-- Embeds `addLibraryRule(targetName, target, args, isTestRule, result)`:
collision check first; with zero source files, emit a deletion marker
(an attribute-less rule appended to `result.Empty`) exactly when the
existing build file has a rule of the same name and kind, and generate
nothing otherwise; with source files, generate a `kt_jvm_library` rule
carrying the file set and the target as its private attribute. -/
def addLibraryRule (targetName : String) (target : KotlinLibTarget)
    (args : GenerateArgs) (isTestRule : Bool) (result : GenerateResult) :
    Except String GenerateResult :=
  match CheckCollisionErrors targetName KtJvmLibrary args.File with
  | some colError => .error colError
  | none =>
    if target.Files.length = 0 then
      match args.File with
      | none => .ok result
      | some f =>
        if f.Rules.any (fun r => r.name = targetName && r.kind = KtJvmLibrary) then
          .ok { result with Empty := result.Empty ++ [NewRule KtJvmLibrary targetName] }
        else .ok result
    else
      let ktLibrary :=
        { NewRule KtJvmLibrary targetName with
            srcs := target.Files
          , testonly := isTestRule
          , privateAttr := some (.lib target) }
      .ok { result with
              Gen := result.Gen ++ [ktLibrary]
            , Imports := result.Imports ++ [.lib target] }

/-- Embeds `addBinaryRule(targetName, target, args, result)`: collision
check, then a `kt_jvm_binary` rule whose `main_class` is the `.kt`-stripped
file path, package-qualified when the file declares a package. -/
def addBinaryRule (targetName : String) (target : KotlinBinTarget)
    (args : GenerateArgs) (result : GenerateResult) : Except String GenerateResult :=
  match CheckCollisionErrors targetName KtJvmBinary args.File with
  | some colError => .error colError
  | none =>
    let main_class := gostrings.TrimSuffix target.File ".kt"
    let main_class :=
      match target.Package with
      | some pkg => pkg.Literal ++ "." ++ main_class
      | none => main_class
    let ktBinary :=
      { NewRule KtJvmBinary targetName with
          srcs := [target.File]
        , main_class := some main_class
        , privateAttr := some (.bin target) }
    .ok { result with
            Gen := result.Gen ++ [ktBinary]
          , Imports := result.Imports ++ [.bin target] }

/-- Embeds `addTestRule(targetName, target, args, result)`: collision
check; the same zero-files deletion-marker block as `addLibraryRule`
(copied there, per the source's own comment); otherwise a `kt_jvm_test`
rule whose `test_class` is `target.TestClass.Literal()` — a nil-pointer
dereference (panic, modelled as an error) when `TestClass` is nil. -/
def addTestRule (targetName : String) (target : KotlinTestTarget)
    (args : GenerateArgs) (result : GenerateResult) : Except String GenerateResult :=
  match CheckCollisionErrors targetName KtJvmTest args.File with
  | some colError => .error colError
  | none =>
    if target.Files.length = 0 then
      match args.File with
      | none => .ok result
      | some f =>
        if f.Rules.any (fun r => r.name = targetName && r.kind = KtJvmTest) then
          .ok { result with Empty := result.Empty ++ [NewRule KtJvmTest targetName] }
        else .ok result
    else
      match target.TestClass with
      | none => .error goNilPointerPanic
      | some testClass =>
        let ktTest :=
          { NewRule KtJvmTest targetName with
              srcs := target.Files
            , test_class := some testClass.Literal
            , privateAttr := some (.test target) }
        .ok { result with
                Gen := result.Gen ++ [ktTest]
              , Imports := result.Imports ++ [.test target] }

/-- The library step of `GenerateRules`: `addLibraryRule` runs ONLY when
the classified library aggregate has at least one file (source lines
`if len(libTarget.Files) != 0`), so its zero-file deletion-marker branch
is never reached from here. -/
def generateLibraryPhase (st : GenState) (args : GenerateArgs) : Except String GenerateResult :=
  if !(st.libTarget.Files.length = 0) then
    addLibraryRule args.defaultTargetName st.libTarget args false ⟨[], [], []⟩
  else .ok ⟨[], [], []⟩

/-- The binary-rule loop of `GenerateRules`: the binary targets sorted by
target name (`slices.SortedFunc` over the map's values), each added in
turn. -/
def generateBinaryPhase (st : GenState) (args : GenerateArgs)
    (result1 : GenerateResult) : Except String GenerateResult :=
  (gosort.sortLe
      (fun a b => gostrings.Le (toBinaryTargetName a.File) (toBinaryTargetName b.File))
      (st.binTargets.map Prod.snd)).foldlM
    (fun acc binTarget => addBinaryRule (toBinaryTargetName binTarget.File) binTarget args acc)
    result1

/-- The test-rule loop of `GenerateRules`: the test targets sorted by first
file (`sort.Slice` on `Files[0]`), each added in turn. -/
def generateTestPhase (st : GenState) (args : GenerateArgs)
    (result2 : GenerateResult) : Except String GenerateResult :=
  (gosort.sortLe
      (fun a b => gostrings.Le (a.Files.headD "") (b.Files.headD ""))
      st.testTargets).foldlM
    (fun acc target => addTestRule (toTestTargetName (target.Files.headD "")) target args acc)
    result2

/-- Embeds `GenerateRules(args)` from the classification stage onward (the
directory walk and the parallel parse fan-out/fan-in are the abstracted
input `parses`, in arrival order): bail out when generation is disabled
for the directory; classify every parse result; run the library phase,
then the binary phase, then the test phase. Fatal Go exits (`os.Exit(1)`
on rule-generation errors, panics) are the error channel. -/
def GenerateRules (cfg : kotlinconfig.KotlinConfig) (args : GenerateArgs)
    (parses : List parser.ParseResult) : Except String GenerateResult :=
  if !cfg.GenerationEnabled then .ok ⟨[], [], []⟩
  else
    match classifyParsedFiles cfg parses with
    | .error e => .error e
    | .ok st =>
      match generateLibraryPhase st args with
      | .error e => .error e
      | .ok result1 =>
        match generateBinaryPhase st args result1 with
        | .error e => .error e
        | .ok result2 => generateTestPhase st args result2

/-- Embeds `resolve.ImportSpec` (external object model): language and the
imported literal. -/
structure ImportSpec where
  Lang : String
  Imp : String
deriving DecidableEq

/-- Embeds `Imports(c, r, f)` from `gazelle/kotlin/resolver.go` (the
provider-declaration contract): `nil` without a private `packagesKey`
attribute, `nil` when the attribute is not a `*KotlinLibTarget`, and
otherwise one import spec per declared package literal, sorted ascending
by literal (`sort.Slice` on `Imp`). -/
def Imports (r : Rule) : List ImportSpec :=
  match r.privateAttr with
  | none => []
  | some attr =>
    match attr with
    | .lib target =>
      gosort.sortLe (fun a b => gostrings.Le a.Imp b.Imp)
        (target.Packages.map (fun kv => ⟨LanguageName, kv.2.Literal⟩))
    | _ => []

end gazelle

namespace scenarios

/-- A resolution environment in which every lookup fails: no overrides, an
empty index, no native matches beyond the fixed ones, no maven resolver. -/
def emptyEnv : gazelle.ResolveEnv :=
  { findRuleWithOverride := fun _ => none
  , findRulesByImportWithConfig := fun _ => []
  , javaIsStdlib := fun _ => false
  , mavenResolver := none }

/-- An environment whose index yields three candidates for `com.example`,
one of them a self-import of the consuming target. -/
def ambiguousEnv : gazelle.ResolveEnv :=
  { emptyEnv with
      findRulesByImportWithConfig := fun s =>
        if s = "com.example" then [⟨"//a:a", false⟩, ⟨"//app:app", true⟩, ⟨"//c:c", false⟩]
        else [] }

/-- An environment whose only index candidate for `com.example` is the
consuming target itself. -/
def selfOnlyEnv : gazelle.ResolveEnv :=
  { emptyEnv with
      findRulesByImportWithConfig := fun s =>
        if s = "com.example" then [⟨"//app:app", true⟩] else [] }

/-- The identifier literal `com.example`. -/
def identComExample : parser.Identifier :=
  ⟨[⟨"com"⟩, ⟨"example"⟩]⟩

/-- A resolver-level import statement for `x.y` read from `src/Foo.kt`. -/
def imptXY : gazelle.ImportStatement :=
  ⟨"src/Foo.kt", ⟨⟨[⟨"x"⟩, ⟨"y"⟩]⟩, false, none⟩⟩

/-- A parsed test-named file that also has an entry point and declares a
package: classification must still make it a Test target. -/
def pTestWithMain : parser.ParseResult :=
  ⟨"FooTest.kt", [], some ⟨[⟨"com"⟩]⟩, true⟩

/-- A parsed test-named file that declares no package. -/
def pTestNoPackage : parser.ParseResult :=
  ⟨"FooTest.kt", [], none, false⟩

/-- Generate args for a directory whose build file already holds a
`kt_jvm_library` named `root` (the directory's default target name). -/
def argsWithExistingLibRule : gazelle.GenerateArgs :=
  ⟨some ⟨[gazelle.NewRule gazelle.KtJvmLibrary "root"]⟩, "root"⟩

/-- A generated library rule carrying two declared packages (recorded out
of literal order) as its private target attribute. -/
def libRuleTwoPackages : gazelle.Rule :=
  { gazelle.NewRule gazelle.KtJvmLibrary "root" with
      privateAttr := some (.lib
        ⟨⟨[]⟩, [("com.zeta", ⟨[⟨"com"⟩, ⟨"zeta"⟩]⟩), ("com.alpha", ⟨[⟨"com"⟩, ⟨"alpha"⟩]⟩)], ["A.kt"]⟩) }

/-- A generated test rule carrying a test target as its private attribute. -/
def testRuleFixture : gazelle.Rule :=
  { gazelle.NewRule gazelle.KtJvmTest "foo_test" with
      privateAttr := some (.test ⟨⟨[]⟩, ["FooTest.kt"], none, some ⟨[⟨"com"⟩, ⟨"FooTest"⟩]⟩⟩) }

end scenarios

namespace parser

theorem Identifier.parent_none_iff (i : Identifier) :
    i.Parent = none ↔ i.parts.length ≤ 1 := by
  unfold Identifier.Parent
  by_cases h : i.parts.length ≤ 1 <;> simp [h]

theorem Identifier.parent_some_iff (i p : Identifier) :
    i.Parent = some p ↔ 2 ≤ i.parts.length ∧ p = ⟨i.parts.dropLast⟩ := by
  unfold Identifier.Parent
  by_cases h : i.parts.length ≤ 1
  · simp [h]
    omega
  · simp [h, eq_comm]
    omega

theorem Identifier.parent_length (i p : Identifier) (h : i.Parent = some p) :
    p.parts.length = i.parts.length - 1 ∧ 2 ≤ i.parts.length := by
  rcases (Identifier.parent_some_iff i p).mp h with ⟨h2, hp⟩
  subst hp
  exact ⟨by simp [List.length_dropLast], h2⟩

end parser

namespace gazelle

/-- The recursion equation of `resolveImport`, mirroring the Go source
line for line: override, index lookup (ambiguity over all matches /
all-self `None` / unique label), native check, maven lookup, then the
parent walk-up retrying the whole algorithm on the shorter identifier. -/
theorem resolveImport_step (env : ResolveEnv) (identifier : parser.Identifier)
    (fromLabel : Label) (importContext : String) :
    resolveImport env identifier fromLabel importContext =
      match env.findRuleWithOverride identifier.Literal with
      | some override => ⟨.Resolution_Label, some override, none⟩
      | none =>
        if 0 < (env.findRulesByImportWithConfig identifier.Literal).length then
          if 1 < (((env.findRulesByImportWithConfig identifier.Literal).filter
              (fun m => !m.isSelfImportOfFrom)).map (fun m => m.label)).length then
            ⟨.Resolution_Error, none,
              some (ambiguousResolutionError identifier importContext
                (env.findRulesByImportWithConfig identifier.Literal))⟩
          else
            match ((env.findRulesByImportWithConfig identifier.Literal).filter
                (fun m => !m.isSelfImportOfFrom)).map (fun m => m.label) with
            | [] => ⟨.Resolution_None, none, none⟩
            | m :: _ => ⟨.Resolution_Label, some m, none⟩
        else if IsNativeImport env.javaIsStdlib identifier.Literal then
          ⟨.Resolution_NativeKotlin, none, none⟩
        else
          match mavenStep env identifier with
          | some l => ⟨.Resolution_Label, some l, none⟩
          | none =>
            match identifier.Parent with
            | none => ⟨.Resolution_NotFound, none, none⟩
            | some importParent => resolveImport env importParent fromLabel importContext := by
  cases hp : identifier.Parent with
  | none =>
    simp only [resolveImport]
    rw [resolveImportFuel.eq_1 env fromLabel importContext identifier _ hp]
  | some p =>
    rcases parser.Identifier.parent_length identifier p hp with ⟨hlen, h2⟩
    simp only [resolveImport]
    have hfuel : identifier.parts.length = (identifier.parts.length - 1) + 1 := by omega
    rw [hfuel, resolveImportFuel.eq_2 env fromLabel importContext identifier p _ hp]
    simp only [hp]
    rw [hlen]

end gazelle

namespace gostrings

theorem data_mk (l : List Char) : (String.mk l).data = l := rfl

/-- Every joined element occurs inside the join (as a contiguous run of
characters). -/
theorem mem_join_isInfix (sep : String) :
    ∀ (elems : List String), ∀ s ∈ elems, s.data <:+: (Join elems sep).data := by
  intro elems
  induction elems with
  | nil => intro s hs; cases hs
  | cons a rest ih =>
    intro s hs
    cases rest with
    | nil =>
      rcases List.mem_cons.mp hs with h | h
      · subst h; simp [Join]
      · cases h
    | cons b rest' =>
      rcases List.mem_cons.mp hs with h | h
      · show s.data <:+: (a ++ sep ++ Join (b :: rest') sep).data
        subst h
        refine ⟨[], (sep ++ Join (b :: rest') sep).data, ?_⟩
        simp [String.data_append]
      · show s.data <:+: (a ++ sep ++ Join (b :: rest') sep).data
        have hrec := ih s h
        have hsuf : (Join (b :: rest') sep).data <:+: (a ++ sep ++ Join (b :: rest') sep).data := by
          refine ⟨(a ++ sep).data, [], ?_⟩
          simp [String.data_append]
        exact hrec.trans hsuf

theorem ltList_irrefl : ∀ l : List Char, LtList l l = false := by
  intro l
  induction l with
  | nil => rfl
  | cons a as ih => simp [LtList, ih]

theorem ltList_asymm : ∀ a b : List Char, LtList a b = true → LtList b a = false := by
  intro a
  induction a with
  | nil =>
    intro b h
    cases b with
    | nil => simp [LtList] at h
    | cons c cs => rfl
  | cons x xs ih =>
    intro b h
    cases b with
    | nil => simp [LtList] at h
    | cons y ys =>
      by_cases h1 : x.toNat < y.toNat
      · have h2 : ¬ y.toNat < x.toNat := by omega
        simp [LtList, h2, h1]
      · by_cases h2 : y.toNat < x.toNat
        · simp [LtList, h1, h2] at h
        · have hxy := h
          simp only [LtList, h1, h2, if_false] at hxy
          simp only [LtList, h1, h2, if_false]
          exact ih ys hxy

theorem ltList_trans :
    ∀ a b c : List Char, LtList a b = true → LtList b c = true → LtList a c = true := by
  intro a
  induction a with
  | nil =>
    intro b c hab hbc
    cases b with
    | nil => simp [LtList] at hab
    | cons y ys =>
      cases c with
      | nil => simp [LtList] at hbc
      | cons z zs => rfl
  | cons x xs ih =>
    intro b c hab hbc
    cases b with
    | nil => simp [LtList] at hab
    | cons y ys =>
      cases c with
      | nil => simp [LtList] at hbc
      | cons z zs =>
        simp only [LtList] at hab hbc ⊢
        by_cases h1 : x.toNat < y.toNat
        · by_cases h2 : y.toNat < z.toNat
          · have : x.toNat < z.toNat := by omega
            simp [this]
          · by_cases h3 : z.toNat < y.toNat
            · simp [h2, h3] at hbc
            · have : x.toNat < z.toNat := by omega
              simp [this]
        · by_cases h1' : y.toNat < x.toNat
          · simp [h1, h1'] at hab
          · have hxy : x.toNat = y.toNat := by omega
            by_cases h2 : y.toNat < z.toNat
            · have : x.toNat < z.toNat := by omega
              simp [this]
            · by_cases h3 : z.toNat < y.toNat
              · simp [h2, h3] at hbc
              · have h4 : ¬ x.toNat < z.toNat := by omega
                have h5 : ¬ z.toNat < x.toNat := by omega
                simp only [h1, h1', if_false] at hab
                simp only [h2, h3, if_false] at hbc
                simp only [h4, h5, if_false]
                exact ih ys zs hab hbc

theorem ltList_connex :
    ∀ a b : List Char, LtList a b = false → LtList b a = false → a = b := by
  intro a
  induction a with
  | nil =>
    intro b hab _
    cases b with
    | nil => rfl
    | cons y ys => simp [LtList] at hab
  | cons x xs ih =>
    intro b hab hba
    cases b with
    | nil => simp [LtList] at hba
    | cons y ys =>
      by_cases h1 : x.toNat < y.toNat
      · simp [LtList, h1] at hab
      · by_cases h2 : y.toNat < x.toNat
        · simp [LtList, h1, h2] at hba
        · have hxy : x = y := Char.ext (by
            have hv : x.val.toNat = y.val.toNat := by
              simp only [Char.toNat] at h1 h2
              omega
            exact UInt32.ext hv)
          simp only [LtList, h1, h2, if_false] at hab hba
          rw [hxy, ih ys hab hba]

theorem le_total_bool (a b : String) : Le a b = false → Le b a = true := by
  intro h
  simp only [Le, Lt, Bool.not_eq_false'] at h
  simp only [Le, Lt, Bool.not_eq_true']
  exact ltList_asymm _ _ h

theorem le_trans_bool (a b c : String) : Le a b = true → Le b c = true → Le a c = true := by
  intro hab hbc
  simp only [Le, Lt, Bool.not_eq_true'] at hab hbc ⊢
  cases h4 : LtList a.data b.data with
  | true =>
    cases h5 : LtList b.data c.data with
    | true => exact ltList_asymm _ _ (ltList_trans _ _ _ h4 h5)
    | false =>
      have hbc' : b.data = c.data := ltList_connex _ _ h5 hbc
      rw [← hbc']
      exact hab
  | false =>
    have hab' : a.data = b.data := ltList_connex _ _ h4 hab
    rw [hab']
    exact hbc


end gostrings

namespace gosort

theorem orderedInsert_perm {α : Type} (le : α → α → Bool) (x : α) :
    ∀ l : List α, List.Perm (orderedInsert le x l) (x :: l) := by
  intro l
  induction l with
  | nil => simp [orderedInsert]
  | cons y ys ih =>
    cases h : le x y with
    | true => simp [orderedInsert, h]
    | false =>
      simp only [orderedInsert, h, Bool.false_eq_true, if_false]
      exact (List.Perm.cons y ih).trans (List.Perm.swap x y ys)

theorem sortLe_perm {α : Type} (le : α → α → Bool) :
    ∀ l : List α, List.Perm (sortLe le l) l := by
  intro l
  induction l with
  | nil => simp [sortLe]
  | cons x xs ih =>
    exact (orderedInsert_perm le x (sortLe le xs)).trans (List.Perm.cons x ih)

theorem orderedInsert_pairwise {α : Type} (le : α → α → Bool)
    (hTot : ∀ a b, le a b = false → le b a = true)
    (hTrans : ∀ a b c, le a b = true → le b c = true → le a c = true) (x : α) :
    ∀ l : List α, List.Pairwise (fun a b => le a b = true) l →
      List.Pairwise (fun a b => le a b = true) (orderedInsert le x l) := by
  intro l
  induction l with
  | nil => intro _; simp [orderedInsert]
  | cons y ys ih =>
    intro hp
    rcases List.pairwise_cons.mp hp with ⟨hy, hys⟩
    cases h : le x y with
    | true =>
      simp only [orderedInsert, h, if_true]
      refine List.pairwise_cons.mpr ⟨?_, hp⟩
      intro z hz
      rcases List.mem_cons.mp hz with h1 | h1
      · rw [h1]; exact h
      · exact hTrans x y z h (hy z h1)
    | false =>
      simp only [orderedInsert, h, Bool.false_eq_true, if_false]
      refine List.pairwise_cons.mpr ⟨?_, ih hys⟩
      intro z hz
      have hz' := (orderedInsert_perm le x ys).mem_iff.mp hz
      rcases List.mem_cons.mp hz' with h1 | h1
      · rw [h1]; exact hTot x y h
      · exact hy z h1

theorem sortLe_pairwise {α : Type} (le : α → α → Bool)
    (hTot : ∀ a b, le a b = false → le b a = true)
    (hTrans : ∀ a b c, le a b = true → le b c = true → le a c = true) :
    ∀ l : List α, List.Pairwise (fun a b => le a b = true) (sortLe le l) := by
  intro l
  induction l with
  | nil => simp [sortLe]
  | cons x xs ih => exact orderedInsert_pairwise le hTot hTrans x (sortLe le xs) ih


end gosort

namespace parser

/-- C7: for every identifier with at least two components, `Parent()` yields
the identifier with the last component stripped (so the literal `a.b.c`
yields `a.b`); `Parent()` of a one-component identifier is none; and for
every identifier (with at least one component, the data model's invariant)
and component name, `Child` followed by `Parent` returns the original
identifier. -/
theorem claim_parent_child_roundtrip (i : Identifier) (n : SimpleIdentiifer) :
    (2 ≤ i.parts.length → i.Parent = some ⟨i.parts.dropLast⟩) ∧
    (i.parts.length = 1 → i.Parent = none) ∧
    (i.parts ≠ [] → (i.Child n).Parent = some i) := by
  refine ⟨?_, ?_, ?_⟩
  · intro h
    unfold Identifier.Parent
    rw [if_neg (by omega)]
  · intro h
    unfold Identifier.Parent
    rw [if_pos (by omega)]
  · intro h
    have hpos : 0 < i.parts.length := List.length_pos.mpr h
    have hlen : ¬ ((i.Child n).parts.length ≤ 1) := by
      show ¬ ((i.parts ++ [n]).length ≤ 1)
      simp only [List.length_append, List.length_singleton]
      omega
    unfold Identifier.Parent
    rw [if_neg hlen]
    show some ⟨(i.parts ++ [n]).dropLast⟩ = some i
    rw [List.dropLast_concat]

/-- Witness for C7 at concrete inputs: `Parent` of `a.b.c` is `a.b` (with
literal `"a.b"`), `Parent` of a one-component identifier is none, and
`Parent (Child a.b c)` is `a.b` again. -/
theorem claim_parent_child_roundtrip_witness :
    Identifier.Parent ⟨[⟨"a"⟩, ⟨"b"⟩, ⟨"c"⟩]⟩ = some ⟨[⟨"a"⟩, ⟨"b"⟩]⟩ ∧
    Identifier.Literal ⟨[⟨"a"⟩, ⟨"b"⟩]⟩ = "a.b" ∧
    Identifier.Parent ⟨[⟨"z"⟩]⟩ = none ∧
    Identifier.Parent (Identifier.Child ⟨[⟨"a"⟩, ⟨"b"⟩]⟩ ⟨"c"⟩) = some ⟨[⟨"a"⟩, ⟨"b"⟩]⟩ :=
  ⟨(claim_parent_child_roundtrip ⟨[⟨"a"⟩, ⟨"b"⟩, ⟨"c"⟩]⟩ ⟨"c"⟩).1 (by decide),
   by decide,
   (claim_parent_child_roundtrip ⟨[⟨"z"⟩]⟩ ⟨"c"⟩).2.1 (by decide),
   (claim_parent_child_roundtrip ⟨[⟨"a"⟩, ⟨"b"⟩]⟩ ⟨"c"⟩).2.2 (by decide)⟩

/-- C8 (counterexample): `"a-b"` is not entirely of identifier shape (the
spec-read grammar rejects it), yet `NewSimpleIdentifier` accepts it,
because Go's unanchored `MatchString` only asks for a match SOMEWHERE in
the string. This refutes the claim that any string not entirely of
identifier shape is rejected. -/
theorem claim_newSimpleIdentifier_counterexample :
    NewSimpleIdentifier "a-b" = .ok ⟨"a-b"⟩ ∧
    specSimpleIdentifierGrammar "a-b" = false := by
  exact ⟨rfl, by decide⟩

/-- C8 (amended): `NewSimpleIdentifier` succeeds exactly when the string
CONTAINS at least one character of the identifier start class (a letter or
underscore) — Go's `MatchString` is unanchored — and in particular every
string that is entirely of identifier shape is accepted. -/
theorem claim_newSimpleIdentifier_amended (s : String) :
    ((∃ si, NewSimpleIdentifier s = .ok si) ↔ s.data.any isIdentStartChar = true) ∧
    (specSimpleIdentifierGrammar s = true → ∃ si, NewSimpleIdentifier s = .ok si) := by
  constructor
  · constructor
    · rintro ⟨si, hsi⟩
      cases h : kotlinUnquotedIdentifierRegexpMatchString s with
      | true => exact h
      | false => simp [NewSimpleIdentifier, h] at hsi
    · intro h
      refine ⟨⟨s⟩, ?_⟩
      simp [NewSimpleIdentifier, kotlinUnquotedIdentifierRegexpMatchString, h]
  · intro h
    cases hs : s.data with
    | nil => simp [specSimpleIdentifierGrammar, specSimpleIdentifierGrammarList, hs] at h
    | cons c cs =>
      rw [specSimpleIdentifierGrammar, hs] at h
      simp only [specSimpleIdentifierGrammarList, Bool.and_eq_true] at h
      refine ⟨⟨s⟩, ?_⟩
      simp [NewSimpleIdentifier, kotlinUnquotedIdentifierRegexpMatchString, hs, h.1]

/-- Witness for C8's amended theorem: `"a_1"` is entirely of identifier
shape and is accepted. -/
theorem claim_newSimpleIdentifier_amended_witness :
    specSimpleIdentifierGrammar "a_1" = true ∧ ∃ si, NewSimpleIdentifier "a_1" = .ok si :=
  ⟨by decide, (claim_newSimpleIdentifier_amended "a_1").2 (by decide)⟩

end parser

namespace gazelle

/-- C1: whenever no override applies and the index lookup leaves more than
one candidate after removing the consuming target's self-imports,
`resolveImport` returns `Resolution_Error` with the ambiguity error (and no
label), and that error message names every candidate target of the lookup:
it is built over ALL lookup results (`targetListFromResults matches`, the
self-imports included), and each candidate's label occurs verbatim inside
the message text. -/
theorem claim_ambiguous_resolution_error (env : ResolveEnv)
    (identifier : parser.Identifier) (fromLabel : Label) (importContext : String)
    (hov : env.findRuleWithOverride identifier.Literal = none)
    (hamb : 1 < ((env.findRulesByImportWithConfig identifier.Literal).filter
        (fun m => !m.isSelfImportOfFrom)).length) :
    resolveImport env identifier fromLabel importContext =
      ⟨.Resolution_Error, none,
        some (ambiguousResolutionError identifier importContext
          (env.findRulesByImportWithConfig identifier.Literal))⟩ ∧
    ∀ m ∈ env.findRulesByImportWithConfig identifier.Literal,
      m.label.String.data <:+:
        (ambiguousResolutionError identifier importContext
          (env.findRulesByImportWithConfig identifier.Literal)).data := by
  constructor
  · have h0 : 0 < (env.findRulesByImportWithConfig identifier.Literal).length := by
      have hle := List.length_filter_le (fun m => !m.isSelfImportOfFrom)
        (env.findRulesByImportWithConfig identifier.Literal)
      omega
    rw [resolveImport_step, hov]
    simp only [List.length_map]
    rw [if_pos h0, if_pos hamb]
  · intro m hm
    have h1 : m.label.String.data <:+:
        (gostrings.Join ((env.findRulesByImportWithConfig identifier.Literal).map
            (fun r => r.label.String)) ", ").data :=
      gostrings.mem_join_isInfix ", "
        ((env.findRulesByImportWithConfig identifier.Literal).map (fun r => r.label.String))
        m.label.String (List.mem_map_of_mem (fun r => r.label.String) hm)
    refine h1.trans ?_
    unfold ambiguousResolutionError targetListFromResults
    refine ⟨("Importing identifier \"" ++ identifier.Literal ++ "\" (from "
        ++ importContext ++ ") resolved to multiple targets (").data,
      (") - this must be fixed using the \"gazelle:resolve\" directive").data, ?_⟩
    simp [String.data_append]

/-- Witness for C1: with no override and an index yielding candidates
`//a:a`, `//app:app` (a self-import) and `//c:c` for `com.example`, two
non-self candidates remain, the result is the ambiguity error, and every
candidate label of the lookup — the self-import included — occurs in the
message. -/
theorem claim_ambiguous_resolution_error_witness :
    scenarios.ambiguousEnv.findRuleWithOverride scenarios.identComExample.Literal = none ∧
    1 < ((scenarios.ambiguousEnv.findRulesByImportWithConfig scenarios.identComExample.Literal).filter
        (fun m => !m.isSelfImportOfFrom)).length ∧
    resolveImport scenarios.ambiguousEnv scenarios.identComExample "//app:app" "ctx" =
      ⟨.Resolution_Error, none,
        some (ambiguousResolutionError scenarios.identComExample "ctx"
          (scenarios.ambiguousEnv.findRulesByImportWithConfig scenarios.identComExample.Literal))⟩ ∧
    ∀ m ∈ scenarios.ambiguousEnv.findRulesByImportWithConfig scenarios.identComExample.Literal,
      m.label.String.data <:+:
        (ambiguousResolutionError scenarios.identComExample "ctx"
          (scenarios.ambiguousEnv.findRulesByImportWithConfig scenarios.identComExample.Literal)).data :=
  ⟨rfl, by decide,
   (claim_ambiguous_resolution_error scenarios.ambiguousEnv scenarios.identComExample
      "//app:app" "ctx" rfl (by decide)).1,
   (claim_ambiguous_resolution_error scenarios.ambiguousEnv scenarios.identComExample
      "//app:app" "ctx" rfl (by decide)).2⟩

/-- C2: when no override applies and the index lookup yields candidates
that are all self-imports of the consuming target (in particular, when the
only candidate is the consuming target itself), `resolveImport` returns
`Resolution_None` with no label — never `Resolution_Label` — so no
dependency edge is added for that import. -/
theorem claim_self_import_returns_none (env : ResolveEnv)
    (identifier : parser.Identifier) (fromLabel : Label) (importContext : String)
    (hov : env.findRuleWithOverride identifier.Literal = none)
    (hne : env.findRulesByImportWithConfig identifier.Literal ≠ [])
    (hself : ∀ m ∈ env.findRulesByImportWithConfig identifier.Literal,
        m.isSelfImportOfFrom = true) :
    resolveImport env identifier fromLabel importContext = ⟨.Resolution_None, none, none⟩ ∧
    (resolveImport env identifier fromLabel importContext).rtype ≠ .Resolution_Label := by
  have hfil : (env.findRulesByImportWithConfig identifier.Literal).filter
      (fun m => !m.isSelfImportOfFrom) = [] := by
    rw [List.filter_eq_nil_iff]
    intro a ha
    simp [hself a ha]
  have h0 : 0 < (env.findRulesByImportWithConfig identifier.Literal).length :=
    List.length_pos.mpr hne
  have hres : resolveImport env identifier fromLabel importContext = ⟨.Resolution_None, none, none⟩ := by
    rw [resolveImport_step, hov]
    simp only [hfil, List.map_nil, List.length_nil]
    rw [if_pos h0, if_neg (by omega)]
  exact ⟨hres, by rw [hres]; decide⟩

/-- Witness for C2: the only candidate for `com.example` is the consuming
target `//app:app` itself; resolution returns `Resolution_None`. -/
theorem claim_self_import_returns_none_witness :
    scenarios.selfOnlyEnv.findRuleWithOverride scenarios.identComExample.Literal = none ∧
    scenarios.selfOnlyEnv.findRulesByImportWithConfig scenarios.identComExample.Literal = [⟨"//app:app", true⟩] ∧
    resolveImport scenarios.selfOnlyEnv scenarios.identComExample "//app:app" "ctx" =
      ⟨.Resolution_None, none, none⟩ :=
  ⟨rfl, rfl,
   (claim_self_import_returns_none scenarios.selfOnlyEnv scenarios.identComExample
      "//app:app" "ctx" rfl (by decide) (by decide)).1⟩

end gazelle

theorem take_dropLast {α : Type} (l : List α) (m : Nat) (h : m ≤ l.length - 1) :
    l.dropLast.take m = l.take m := by
  rw [List.dropLast_eq_take, List.take_take, Nat.min_eq_left h]

namespace gazelle

/-- Extra fuel is never consumed: running the fueled recursion with any
fuel at least the component count gives the same result as running it with
exactly the component count (the recursion depth is bounded by the
component count). -/
theorem resolveImportFuel_stable (env : ResolveEnv) (fromLabel : Label) (ctx : String) :
    ∀ (k : Nat) (identifier : parser.Identifier), identifier.parts.length = k →
      ∀ n, k ≤ n →
        resolveImportFuel env fromLabel ctx n identifier =
          resolveImportFuel env fromLabel ctx k identifier := by
  intro k
  induction k with
  | zero =>
    intro identifier hk n _
    have hp : identifier.Parent = none := (parser.Identifier.parent_none_iff _).mpr (by omega)
    rw [resolveImportFuel.eq_1 env fromLabel ctx identifier n hp,
        resolveImportFuel.eq_1 env fromLabel ctx identifier 0 hp]
  | succ k ih =>
    intro identifier hk n hn
    cases hp : identifier.Parent with
    | none =>
      rw [resolveImportFuel.eq_1 env fromLabel ctx identifier n hp,
          resolveImportFuel.eq_1 env fromLabel ctx identifier _ hp]
    | some p =>
      rcases parser.Identifier.parent_length identifier p hp with ⟨hlen, h2⟩
      have hpk : p.parts.length = k := by omega
      cases n with
      | zero => omega
      | succ n' =>
        rw [resolveImportFuel.eq_2 env fromLabel ctx identifier p n' hp,
            resolveImportFuel.eq_2 env fromLabel ctx identifier p k hp,
            ih p hpk n' (by omega)]

/-- When all four resolution steps fail, `resolveImport` walks up: `NotFound`
for a single-component identifier, otherwise the whole algorithm re-runs on
the parent identifier. -/
theorem resolveImport_of_stepsFail (env : ResolveEnv) (id : parser.Identifier)
    (fromLabel : Label) (ctx : String) (hsf : resolutionStepsFail env id) :
    resolveImport env id fromLabel ctx =
      match id.Parent with
      | none => ⟨.Resolution_NotFound, none, none⟩
      | some p => resolveImport env p fromLabel ctx := by
  obtain ⟨h1, h2, h3, h4⟩ := hsf
  rw [resolveImport_step]
  simp [h1, h2, h3, h4]

/-- When some resolution step succeeds at this identifier, the result is
never `Resolution_NotFound` (each succeeding step short-circuits with its
own outcome). -/
theorem resolveImport_ne_notFound (env : ResolveEnv) (id : parser.Identifier)
    (fromLabel : Label) (ctx : String) (hnsf : ¬ resolutionStepsFail env id) :
    resolveImport env id fromLabel ctx ≠ ⟨.Resolution_NotFound, none, none⟩ := by
  intro h
  rw [resolveImport_step] at h
  rcases ho : env.findRuleWithOverride id.Literal with _ | l
  · rw [ho] at h
    by_cases hi : env.findRulesByImportWithConfig id.Literal = []
    · rw [hi] at h
      simp only [List.length_nil, List.filter_nil, List.map_nil] at h
      rw [if_neg (by omega)] at h
      cases hn : IsNativeImport env.javaIsStdlib id.Literal
      · rw [hn] at h
        simp only [Bool.false_eq_true, if_false] at h
        rcases hm : mavenStep env id with _ | l'
        · exact hnsf ⟨ho, hi, hn, hm⟩
        · rw [hm] at h
          simp at h
      · rw [hn] at h
        simp at h
    · have h0 : 0 < (env.findRulesByImportWithConfig id.Literal).length := List.length_pos.mpr hi
      rw [if_pos h0] at h
      by_cases hgt : 1 < (((env.findRulesByImportWithConfig id.Literal).filter
          (fun m => !m.isSelfImportOfFrom)).map (fun m => m.label)).length
      · rw [if_pos hgt] at h
        simp at h
      · rw [if_neg hgt] at h
        rcases hfm : ((env.findRulesByImportWithConfig id.Literal).filter
            (fun m => !m.isSelfImportOfFrom)).map (fun m => m.label) with _ | ⟨m, tl⟩
        · rw [hfm] at h
          simp at h
        · rw [hfm] at h
          simp at h
  · rw [ho] at h
    simp at h

/-- The `NotFound` characterisation, by induction on the component count:
resolution yields `NotFound` exactly when every prefix of the identifier
(from the full identifier down to its first component) fails all four
steps. -/
theorem resolveImport_notFound_iff_aux (env : ResolveEnv) (fromLabel : Label) (ctx : String) :
    ∀ (k : Nat) (identifier : parser.Identifier), identifier.parts.length = k + 1 →
      (resolveImport env identifier fromLabel ctx = ⟨.Resolution_NotFound, none, none⟩ ↔
        ∀ j < k + 1, resolutionStepsFail env ⟨identifier.parts.take (j + 1)⟩) := by
  intro k
  induction k with
  | zero =>
    intro identifier hk
    have hp : identifier.Parent = none := (parser.Identifier.parent_none_iff _).mpr (by omega)
    have hfull : (⟨identifier.parts.take 1⟩ : parser.Identifier) = identifier := by
      rw [List.take_of_length_le (by omega)]
    by_cases hsf : resolutionStepsFail env identifier
    · constructor
      · intro _ j hj
        have hj0 : j = 0 := by omega
        subst hj0
        rw [hfull]
        exact hsf
      · intro _
        rw [resolveImport_of_stepsFail env identifier fromLabel ctx hsf]
        simp only [hp]
    · constructor
      · intro hres
        exact absurd hres (resolveImport_ne_notFound env identifier fromLabel ctx hsf)
      · intro hall
        exfalso
        apply hsf
        have hx := hall 0 (by omega)
        rw [hfull] at hx
        exact hx
  | succ k ih =>
    intro identifier hk
    have h2 : 2 ≤ identifier.parts.length := by omega
    have hp : identifier.Parent = some ⟨identifier.parts.dropLast⟩ :=
      (parser.Identifier.parent_some_iff _ _).mpr ⟨h2, rfl⟩
    have hplen : (⟨identifier.parts.dropLast⟩ : parser.Identifier).parts.length = k + 1 := by
      show identifier.parts.dropLast.length = k + 1
      rw [List.length_dropLast]
      omega
    have hfull : (⟨identifier.parts.take (k + 1 + 1)⟩ : parser.Identifier) = identifier := by
      rw [List.take_of_length_le (by omega)]
    have htake : ∀ j, j < k + 1 →
        (⟨identifier.parts.dropLast.take (j + 1)⟩ : parser.Identifier) =
          ⟨identifier.parts.take (j + 1)⟩ := by
      intro j hj
      exact congrArg (fun l => (⟨l⟩ : parser.Identifier))
        (take_dropLast identifier.parts (j + 1) (by omega))
    by_cases hsf : resolutionStepsFail env identifier
    · rw [resolveImport_of_stepsFail env identifier fromLabel ctx hsf]
      simp only [hp]
      rw [ih ⟨identifier.parts.dropLast⟩ hplen]
      constructor
      · intro hall j hj
        rcases Nat.lt_succ_iff_lt_or_eq.mp hj with hj' | hj'
        · have hx := hall j hj'
          rw [htake j hj'] at hx
          exact hx
        · subst hj'
          rw [hfull]
          exact hsf
      · intro hall j hj
        have hx := hall j (by omega)
        rw [← htake j hj] at hx
        exact hx
    · constructor
      · intro hres
        exact absurd hres (resolveImport_ne_notFound env identifier fromLabel ctx hsf)
      · intro hall
        exfalso
        apply hsf
        have hx := hall (k + 1) (by omega)
        rw [hfull] at hx
        exact hx

/-- C3: `resolveImport` is well-founded, with recursion depth bounded by
the component count — running the recursion with any fuel at least the
component count equals running it at the component count, so the extra
depth is never used; when all four steps fail and at least two components
remain, the result is exactly the result of re-running the whole algorithm
on the identifier with the last dotted component stripped; and the result
is `NotFound` precisely when every prefix, down to the one-component
identifier, fails every step. -/
theorem claim_walkup_termination (env : ResolveEnv) (identifier : parser.Identifier)
    (fromLabel : Label) (importContext : String) (hne : identifier.parts ≠ []) :
    (∀ n, identifier.parts.length ≤ n →
      resolveImportFuel env fromLabel importContext n identifier =
        resolveImport env identifier fromLabel importContext) ∧
    (resolutionStepsFail env identifier → 2 ≤ identifier.parts.length →
      resolveImport env identifier fromLabel importContext =
        resolveImport env ⟨identifier.parts.dropLast⟩ fromLabel importContext) ∧
    (resolveImport env identifier fromLabel importContext = ⟨.Resolution_NotFound, none, none⟩ ↔
      ∀ j < identifier.parts.length, resolutionStepsFail env ⟨identifier.parts.take (j + 1)⟩) := by
  obtain ⟨k, hk⟩ : ∃ k, identifier.parts.length = k + 1 :=
    ⟨identifier.parts.length - 1, by have := List.length_pos.mpr hne; omega⟩
  refine ⟨?_, ?_, ?_⟩
  · intro n hn
    exact resolveImportFuel_stable env fromLabel importContext
      identifier.parts.length identifier rfl n hn
  · intro hsf h2
    have hp : identifier.Parent = some ⟨identifier.parts.dropLast⟩ :=
      (parser.Identifier.parent_some_iff _ _).mpr ⟨h2, rfl⟩
    rw [resolveImport_of_stepsFail env identifier fromLabel importContext hsf]
    simp only [hp]
  · rw [hk]
    exact resolveImport_notFound_iff_aux env fromLabel importContext k identifier hk

/-- Witness for C3: for the two-component `com.example` against the
all-failing environment, fuel `7` matches the exact-depth run, and the
result is `NotFound` because both prefixes (`com.example` and `com`) fail
every step. -/
theorem claim_walkup_termination_witness :
    (⟨[⟨"com"⟩, ⟨"example"⟩]⟩ : parser.Identifier).parts ≠ [] ∧
    resolveImportFuel scenarios.emptyEnv "//app:app" "ctx" 7 ⟨[⟨"com"⟩, ⟨"example"⟩]⟩ =
      resolveImport scenarios.emptyEnv ⟨[⟨"com"⟩, ⟨"example"⟩]⟩ "//app:app" "ctx" ∧
    resolveImport scenarios.emptyEnv ⟨[⟨"com"⟩, ⟨"example"⟩]⟩ "//app:app" "ctx" =
      ⟨.Resolution_NotFound, none, none⟩ :=
  ⟨by decide,
   (claim_walkup_termination scenarios.emptyEnv ⟨[⟨"com"⟩, ⟨"example"⟩]⟩ "//app:app" "ctx"
      (by decide)).1 7 (by decide),
   ((claim_walkup_termination scenarios.emptyEnv ⟨[⟨"com"⟩, ⟨"example"⟩]⟩ "//app:app" "ctx"
      (by decide)).2.2).mpr (by decide)⟩

end gazelle

namespace gazelle

/-- C4: the routing of one import inside the batch resolver. The batch
starts from the empty dependency set; then, for the import at the head of
the remaining work: a resolution error (the ambiguity case is the only
producer of `err`) aborts the whole batch and surfaces that error to the
caller; a `Resolution_NotFound` result appends exactly one diagnostic and
continues with the remaining imports, adding nothing to the dependency
set; `Resolution_NativeKotlin` and `Resolution_None` results continue with
no diagnostic and nothing added; and only a returned dependency label is
added to the set. -/
theorem claim_batch_error_handling (env : ResolveEnv) (fromLabel : Label)
    (impt : ImportStatement) (rest : List ImportStatement)
    (deps : LabelSet) (diagnostics : List String) :
    (resolveImports env fromLabel (impt :: rest) =
      resolveImportsLoop env fromLabel (impt :: rest) (NewLabelSet fromLabel) []) ∧
    (∀ e, (resolveImport env impt.ImportHeader.Identifier fromLabel (importContextFor impt)).err = some e →
      resolveImportsLoop env fromLabel (impt :: rest) deps diagnostics = .error e) ∧
    ((resolveImport env impt.ImportHeader.Identifier fromLabel (importContextFor impt)).err = none →
      (resolveImport env impt.ImportHeader.Identifier fromLabel (importContextFor impt)).rtype = .Resolution_NotFound →
      resolveImportsLoop env fromLabel (impt :: rest) deps diagnostics =
        resolveImportsLoop env fromLabel rest deps (diagnostics ++ [notFoundDiagnostic impt])) ∧
    ((resolveImport env impt.ImportHeader.Identifier fromLabel (importContextFor impt)).err = none →
      ((resolveImport env impt.ImportHeader.Identifier fromLabel (importContextFor impt)).rtype = .Resolution_NativeKotlin ∨
       (resolveImport env impt.ImportHeader.Identifier fromLabel (importContextFor impt)).rtype = .Resolution_None) →
      resolveImportsLoop env fromLabel (impt :: rest) deps diagnostics =
        resolveImportsLoop env fromLabel rest deps diagnostics) ∧
    (∀ dep, (resolveImport env impt.ImportHeader.Identifier fromLabel (importContextFor impt)).err = none →
      (resolveImport env impt.ImportHeader.Identifier fromLabel (importContextFor impt)).rtype ≠ .Resolution_NotFound →
      (resolveImport env impt.ImportHeader.Identifier fromLabel (importContextFor impt)).rtype ≠ .Resolution_NativeKotlin →
      (resolveImport env impt.ImportHeader.Identifier fromLabel (importContextFor impt)).rtype ≠ .Resolution_None →
      (resolveImport env impt.ImportHeader.Identifier fromLabel (importContextFor impt)).label = some dep →
      resolveImportsLoop env fromLabel (impt :: rest) deps diagnostics =
        resolveImportsLoop env fromLabel rest (deps.Add dep) diagnostics) := by
  refine ⟨rfl, ?_, ?_, ?_, ?_⟩
  · intro e herr
    simp only [resolveImportsLoop]
    rw [herr]
  · intro herr hrt
    simp only [resolveImportsLoop]
    rw [herr]
    rw [if_pos hrt]
  · intro herr hdisj
    simp only [resolveImportsLoop]
    rw [herr]
    rw [if_neg (by rcases hdisj with h | h <;> simp [h]), if_pos hdisj]
  · intro dep herr h1 h2 h3 hlab
    simp only [resolveImportsLoop]
    rw [herr]
    rw [if_neg h1, if_neg (by rintro (h | h) <;> [exact h2 h; exact h3 h]), hlab]

/-- Witness for C4: in the all-failing environment the `x.y` import
resolves to `NotFound`; the loop records exactly one diagnostic, adds
nothing, and continues (here, terminating with the empty set and that one
diagnostic). -/
theorem claim_batch_error_handling_witness :
    (resolveImport scenarios.emptyEnv scenarios.imptXY.ImportHeader.Identifier "//app:app"
        (importContextFor scenarios.imptXY)).err = none ∧
    (resolveImport scenarios.emptyEnv scenarios.imptXY.ImportHeader.Identifier "//app:app"
        (importContextFor scenarios.imptXY)).rtype = .Resolution_NotFound ∧
    resolveImportsLoop scenarios.emptyEnv "//app:app" [scenarios.imptXY] (NewLabelSet "//app:app") [] =
      resolveImportsLoop scenarios.emptyEnv "//app:app" [] (NewLabelSet "//app:app")
        ([] ++ [notFoundDiagnostic scenarios.imptXY]) :=
  ⟨rfl, rfl,
   (claim_batch_error_handling scenarios.emptyEnv "//app:app" scenarios.imptXY []
      (NewLabelSet "//app:app") []).2.2.1 rfl rfl⟩

end gazelle

namespace gazelle

/-- A basename ending in `Test.kt` always passes `NewSimpleIdentifier`'s
unanchored regexp check after `.kt` is trimmed: the trimmed name still ends
in `Test`, so it contains a letter. -/
theorem matchString_of_hasSuffix_testkt (b : String)
    (h : gostrings.HasSuffix b "Test.kt" = true) :
    parser.kotlinUnquotedIdentifierRegexpMatchString (gostrings.TrimSuffix b ".kt") = true := by
  have hsuf : "Test.kt".data <:+ b.data := of_decide_eq_true h
  obtain ⟨xs, hxs⟩ := hsuf
  have hsuf2 : gostrings.HasSuffix b ".kt" = true := by
    apply decide_eq_true
    refine ⟨xs ++ "Test".data, ?_⟩
    rw [← hxs, List.append_assoc]
    congr 1
  unfold gostrings.TrimSuffix
  simp only [hsuf2, if_true]
  unfold parser.kotlinUnquotedIdentifierRegexpMatchString
  rw [gostrings.data_mk, ← hxs]
  have hlen : (xs ++ "Test.kt".data).length - ".kt".data.length = xs.length + 4 := by
    simp [List.length_append]
  rw [hlen, List.take_append]
  simp only [List.any_append]
  have htail : ("Test.kt".data.take 4).any parser.isIdentStartChar = true := by decide
  rw [htail, Bool.or_true]

/-- When the file declares a package, `guessClassName` never panics: both
the validation-failure path (`nil` class) and the success path return
normally. -/
theorem guessClassName_ok_of_package (p : parser.ParseResult)
    (pkg : parser.Identifier) (hpkg : p.Package = some pkg) :
    ∃ v, guessClassName p = .ok v := by
  unfold guessClassName
  cases hsi : parser.NewSimpleIdentifier
      (gostrings.TrimSuffix (gopath.FilepathBase p.File) ".kt") with
  | error e => exact ⟨none, by simp⟩
  | ok id => exact ⟨some (pkg.Child id), by simp [hpkg]⟩

/-- C10: classifying a test-named file requires the parse result to declare
a package. Under the default configuration (test suffix `Test.kt`), a
test-named file without a package declaration makes `guessClassName`
dereference a nil `*Identifier` (`p.Package.Child(id)`) — a runtime panic
that aborts classification — while any file that does declare a package
never reaches that panic. -/
theorem claim_test_classification_needs_package (p : parser.ParseResult) :
    (kotlinconfig.New.IsTestBaseName (gopath.FilepathBase p.File) = true →
      p.Package = none →
      guessClassName p = .error goNilPointerPanic ∧
      ∀ st : GenState, classifyParsedFile kotlinconfig.New st p = .error goNilPointerPanic) ∧
    (∀ pkg, p.Package = some pkg → ∃ v, guessClassName p = .ok v) := by
  constructor
  · intro htest hpkg
    have hsuffix : gostrings.HasSuffix (gopath.FilepathBase p.File) "Test.kt" = true := by
      simpa [kotlinconfig.KotlinConfig.IsTestBaseName, kotlinconfig.New] using htest
    have hmatch := matchString_of_hasSuffix_testkt _ hsuffix
    have hgc : guessClassName p = .error goNilPointerPanic := by
      unfold guessClassName
      unfold parser.NewSimpleIdentifier
      simp only [hmatch, if_true]
      rw [hpkg]
    refine ⟨hgc, ?_⟩
    intro st
    unfold classifyParsedFile
    simp only [htest, if_true]
    rw [hgc]
  · intro pkg hpkg
    exact guessClassName_ok_of_package p pkg hpkg

/-- Witness for C10: the test-named, package-less `FooTest.kt` panics in
`guessClassName`; the same basename with a declared package classifies
normally. -/
theorem claim_test_classification_needs_package_witness :
    kotlinconfig.New.IsTestBaseName (gopath.FilepathBase scenarios.pTestNoPackage.File) = true ∧
    scenarios.pTestNoPackage.Package = none ∧
    guessClassName scenarios.pTestNoPackage = .error goNilPointerPanic ∧
    (∃ v, guessClassName scenarios.pTestWithMain = .ok v) :=
  ⟨by decide, rfl,
   ((claim_test_classification_needs_package scenarios.pTestNoPackage).1 (by decide) rfl).1,
   (claim_test_classification_needs_package scenarios.pTestWithMain).2 ⟨[⟨"com"⟩]⟩ rfl⟩

end gazelle

namespace gazelle

/-- C5: classification applies in strict priority order. A basename
matching a configured test suffix makes the file a Test target regardless
of its entry-point flag (the first conjunct never consults `HasMain`);
otherwise a file with an entry point becomes its own Binary target, keyed
by file; otherwise the file folds into the directory's single library
target (its file recorded, its package literal recorded when declared). -/
theorem claim_classification_priority (cfg : kotlinconfig.KotlinConfig)
    (st : GenState) (p : parser.ParseResult) :
    (cfg.IsTestBaseName (gopath.FilepathBase p.File) = true →
      ∀ pkg, p.Package = some pkg →
        ∃ t : KotlinTestTarget,
          classifyParsedFile cfg st p = .ok { st with testTargets := st.testTargets ++ [t] } ∧
          t.Files = [p.File] ∧ t.Package = p.Package) ∧
    (cfg.IsTestBaseName (gopath.FilepathBase p.File) = false → p.HasMain = true →
      ∃ b : KotlinBinTarget,
        classifyParsedFile cfg st p =
          .ok { st with binTargets :=
            (st.binTargets.filter (fun kv => !(kv.1 = p.File))) ++ [(p.File, b)] } ∧
        b.File = p.File) ∧
    (cfg.IsTestBaseName (gopath.FilepathBase p.File) = false → p.HasMain = false →
      ∃ lib : KotlinLibTarget,
        classifyParsedFile cfg st p = .ok { st with libTarget := lib } ∧
        p.File ∈ lib.Files ∧
        ∀ pkg, p.Package = some pkg → pkg.Literal ∈ lib.Packages.map Prod.fst) := by
  refine ⟨?_, ?_, ?_⟩
  · intro htest pkg hpkg
    obtain ⟨v, hv⟩ := guessClassName_ok_of_package p pkg hpkg
    unfold classifyParsedFile
    simp only [htest, if_true]
    rw [hv]
    exact ⟨_, rfl, rfl, rfl⟩
  · intro htest hmain
    unfold classifyParsedFile
    simp only [htest, Bool.false_eq_true, if_false, hmain, if_true]
    exact ⟨_, rfl, rfl⟩
  · intro htest hmain
    unfold classifyParsedFile
    simp only [htest, hmain, Bool.false_eq_true, if_false]
    refine ⟨_, rfl, ?_, ?_⟩
    · have hbase : p.File ∈ (st.libTarget.addFile p.File).Files := by
        unfold KotlinLibTarget.addFile
        by_cases hc : st.libTarget.Files.contains p.File
        · simp only [hc, if_true]
          simpa using hc
        · simp only [hc, Bool.false_eq_true, if_false]
          exact List.mem_append_right _ (List.mem_singleton_self _)
      cases hpkg : p.Package with
      | none => simpa using hbase
      | some pkg2 =>
        show p.File ∈ ((st.libTarget.addFile p.File).addPackage pkg2).Files
        unfold KotlinLibTarget.addPackage
        simpa using hbase
    · intro pkg hpkg
      simp only [hpkg]
      show pkg.Literal ∈ ((st.libTarget.addFile p.File).addPackage pkg).Packages.map Prod.fst
      unfold KotlinLibTarget.addPackage
      simp

/-- Witness for C5: a test-named file that also has an entry point still
becomes a Test target (priority of the test-name check over entry-point
detection). -/
theorem claim_classification_priority_witness :
    kotlinconfig.New.IsTestBaseName (gopath.FilepathBase scenarios.pTestWithMain.File) = true ∧
    scenarios.pTestWithMain.HasMain = true ∧
    ∃ t : KotlinTestTarget,
      classifyParsedFile kotlinconfig.New initialGenState scenarios.pTestWithMain =
        .ok { initialGenState with testTargets := initialGenState.testTargets ++ [t] } ∧
      t.Files = [scenarios.pTestWithMain.File] ∧ t.Package = scenarios.pTestWithMain.Package :=
  ⟨by decide, rfl,
   (claim_classification_priority kotlinconfig.New initialGenState scenarios.pTestWithMain).1
     (by decide) ⟨[⟨"com"⟩]⟩ rfl⟩

end gazelle

namespace gazelle

/-- C9: the provider-declaration contract. `Imports` returns nothing for
rules without the private `packagesKey` attribute and for binary and test
targets (so binaries and tests are never index candidates), and for a
library target it returns exactly one import spec per declared package
entry (a permutation of the package map's entries, each spec carrying the
language and the package literal), in ascending order of import literal. -/
theorem claim_imports_provider (r : Rule) :
    (r.privateAttr = none → Imports r = []) ∧
    (∀ b, r.privateAttr = some (.bin b) → Imports r = []) ∧
    (∀ t, r.privateAttr = some (.test t) → Imports r = []) ∧
    (∀ lib, r.privateAttr = some (.lib lib) →
      List.Perm (Imports r)
        (lib.Packages.map (fun kv => (⟨LanguageName, kv.2.Literal⟩ : ImportSpec))) ∧
      List.Pairwise (fun a b : ImportSpec => gostrings.Le a.Imp b.Imp = true) (Imports r)) := by
  refine ⟨?_, ?_, ?_, ?_⟩
  · intro h
    unfold Imports
    rw [h]
  · intro b h
    unfold Imports
    rw [h]
  · intro t h
    unfold Imports
    rw [h]
  · intro lib h
    unfold Imports
    rw [h]
    constructor
    · exact gosort.sortLe_perm _ _
    · exact gosort.sortLe_pairwise _
        (fun a b hab => gostrings.le_total_bool a.Imp b.Imp hab)
        (fun a b c hab hbc => gostrings.le_trans_bool a.Imp b.Imp c.Imp hab hbc) _

/-- Witness for C9: a library rule that declares `com.zeta` before
`com.alpha` provides both, sorted ascending; a test rule provides
nothing. -/
theorem claim_imports_provider_witness :
    scenarios.libRuleTwoPackages.privateAttr =
      some (.lib ⟨⟨[]⟩, [("com.zeta", ⟨[⟨"com"⟩, ⟨"zeta"⟩]⟩), ("com.alpha", ⟨[⟨"com"⟩, ⟨"alpha"⟩]⟩)], ["A.kt"]⟩) ∧
    Imports scenarios.libRuleTwoPackages =
      [⟨LanguageName, "com.alpha"⟩, ⟨LanguageName, "com.zeta"⟩] ∧
    List.Pairwise (fun a b : ImportSpec => gostrings.Le a.Imp b.Imp = true)
      (Imports scenarios.libRuleTwoPackages) ∧
    Imports scenarios.testRuleFixture = [] :=
  ⟨rfl, by decide,
   ((claim_imports_provider scenarios.libRuleTwoPackages).2.2.2 _ rfl).2,
   (claim_imports_provider scenarios.testRuleFixture).2.2.1 _ rfl⟩

end gazelle

namespace gazelle

/-- A successful `addBinaryRule` never touches the deletion-marker list. -/
theorem addBinaryRule_ok_empty (targetName : String) (target : KotlinBinTarget)
    (args : GenerateArgs) (acc res : GenerateResult)
    (h : addBinaryRule targetName target args acc = .ok res) : res.Empty = acc.Empty := by
  unfold addBinaryRule at h
  cases hc : CheckCollisionErrors targetName KtJvmBinary args.File with
  | some e => rw [hc] at h; cases h
  | none =>
    rw [hc] at h
    simp only [Except.ok.injEq] at h
    rw [← h]

/-- A successful `addTestRule` on a test target with at least one file
never touches the deletion-marker list. -/
theorem addTestRule_ok_empty (targetName : String) (target : KotlinTestTarget)
    (args : GenerateArgs) (acc res : GenerateResult) (hf : target.Files ≠ [])
    (h : addTestRule targetName target args acc = .ok res) : res.Empty = acc.Empty := by
  unfold addTestRule at h
  cases hc : CheckCollisionErrors targetName KtJvmTest args.File with
  | some e => rw [hc] at h; cases h
  | none =>
    rw [hc] at h
    rw [if_neg (by simp [List.length_eq_zero]; exact hf)] at h
    cases ht : target.TestClass with
    | none => rw [ht] at h; cases h
    | some cls =>
      rw [ht] at h
      simp only [Except.ok.injEq] at h
      rw [← h]

/-- A successful `addLibraryRule` on a library target with at least one
file never touches the deletion-marker list. -/
theorem addLibraryRule_ok_empty (targetName : String) (target : KotlinLibTarget)
    (args : GenerateArgs) (isTestRule : Bool) (acc res : GenerateResult)
    (hf : target.Files ≠ [])
    (h : addLibraryRule targetName target args isTestRule acc = .ok res) :
    res.Empty = acc.Empty := by
  unfold addLibraryRule at h
  cases hc : CheckCollisionErrors targetName KtJvmLibrary args.File with
  | some e => rw [hc] at h; cases h
  | none =>
    rw [hc] at h
    rw [if_neg (by simp [List.length_eq_zero]; exact hf)] at h
    simp only [Except.ok.injEq] at h
    rw [← h]

/-- Folding a rule-adding step whose successes preserve `Empty` preserves
`Empty` across the whole batch. -/
theorem foldlM_empty_invariant {α : Type} (f : GenerateResult → α → Except String GenerateResult)
    (P : α → Prop)
    (hstep : ∀ acc x res, P x → f acc x = .ok res → res.Empty = acc.Empty) :
    ∀ (l : List α) (acc res : GenerateResult), (∀ x ∈ l, P x) →
      l.foldlM f acc = .ok res → res.Empty = acc.Empty := by
  intro l
  induction l with
  | nil =>
    intro acc res _ h
    simp only [List.foldlM_nil] at h
    cases h
    rfl
  | cons x xs ih =>
    intro acc res hP h
    rw [List.foldlM_cons] at h
    cases hfx : f acc x with
    | error e =>
      rw [hfx] at h
      simp [Bind.bind, Except.bind] at h
    | ok acc1 =>
      rw [hfx] at h
      simp only [Bind.bind, Except.bind] at h
      have h1 := ih acc1 res (fun y hy => hP y (List.mem_cons_of_mem _ hy)) h
      have h2 := hstep acc x acc1 (hP x (List.mem_cons_self _ _)) hfx
      rw [h1, h2]

/-- Every test target produced by the classification loop carries at least
one file (classification always records exactly the classified file). -/
theorem classify_testTargets_files_nonempty (cfg : kotlinconfig.KotlinConfig) :
    ∀ (ps : List parser.ParseResult) (st st' : GenState),
      (∀ t ∈ st.testTargets, t.Files ≠ []) →
      ps.foldlM (classifyParsedFile cfg) st = .ok st' →
      ∀ t ∈ st'.testTargets, t.Files ≠ [] := by
  intro ps
  induction ps with
  | nil =>
    intro st st' hinv h
    simp only [List.foldlM_nil] at h
    cases h
    exact hinv
  | cons p ps ih =>
    intro st st' hinv h
    rw [List.foldlM_cons] at h
    cases hc : classifyParsedFile cfg st p with
    | error e =>
      rw [hc] at h
      simp [Bind.bind, Except.bind] at h
    | ok st1 =>
      rw [hc] at h
      simp only [Bind.bind, Except.bind] at h
      refine ih st1 st' ?_ h
      intro t ht
      unfold classifyParsedFile at hc
      cases htest : cfg.IsTestBaseName (gopath.FilepathBase p.File) with
      | true =>
        simp only [htest, if_true] at hc
        cases hg : guessClassName p with
        | error e => rw [hg] at hc; cases hc
        | ok cls =>
          rw [hg] at hc
          simp only [Except.ok.injEq] at hc
          rw [← hc] at ht
          simp only at ht
          rcases List.mem_append.mp ht with hold | hnew
          · exact hinv t hold
          · rw [List.mem_singleton.mp hnew]
            simp [NewKotlinTestTarget]
      | false =>
        simp only [htest, Bool.false_eq_true, if_false] at hc
        cases hmain : p.HasMain with
        | true =>
          simp only [hmain, if_true] at hc
          simp only [Except.ok.injEq] at hc
          rw [← hc] at ht
          exact hinv t ht
        | false =>
          simp only [hmain, Bool.false_eq_true, if_false] at hc
          simp only [Except.ok.injEq] at hc
          rw [← hc] at ht
          exact hinv t ht

end gazelle

namespace gazelle

/-- A successful library phase leaves the deletion-marker list empty: it
either skips rule generation entirely (zero files) or adds a non-empty
library rule. -/
theorem generateLibraryPhase_empty (st : GenState) (args : GenerateArgs)
    (res : GenerateResult) (h : generateLibraryPhase st args = .ok res) :
    res.Empty = [] := by
  unfold generateLibraryPhase at h
  by_cases hlib : st.libTarget.Files.length = 0
  · rw [if_neg (by simp [hlib])] at h
    cases h
    rfl
  · rw [if_pos (by simp [hlib])] at h
    have hne : st.libTarget.Files ≠ [] := by
      intro hnil
      exact hlib (by rw [hnil]; rfl)
    exact addLibraryRule_ok_empty args.defaultTargetName st.libTarget args false
      ⟨[], [], []⟩ res hne h

/-- C6 (as stated) fails on the code, because `GenerateRules` guards the
`addLibraryRule` call: no deletion marker is ever emitted. This proves the
supporting fact that every successful generation pass has an empty
deletion-marker list. -/
theorem generateRules_empty_nil (cfg : kotlinconfig.KotlinConfig) (args : GenerateArgs)
    (parses : List parser.ParseResult) (res : GenerateResult)
    (h : GenerateRules cfg args parses = .ok res) : res.Empty = [] := by
  unfold GenerateRules at h
  cases hgen : cfg.GenerationEnabled with
  | false =>
    rw [hgen] at h
    cases h
    rfl
  | true =>
    rw [hgen] at h
    simp only [Bool.not_true, Bool.false_eq_true, if_false] at h
    split at h
    · cases h
    next st hcl =>
      split at h
      · cases h
      next result1 hs1 =>
        split at h
        · cases h
        next result2 hs2 =>
          have h1 : result1.Empty = [] := generateLibraryPhase_empty st args result1 hs1
          have h2 : result2.Empty = result1.Empty :=
            foldlM_empty_invariant _ (fun _ : KotlinBinTarget => True)
              (fun acc x resx _ hx => addBinaryRule_ok_empty (toBinaryTargetName x.File) x args acc resx hx)
              _ result1 result2 (fun _ _ => trivial) hs2
          have h3 : res.Empty = result2.Empty := by
            refine foldlM_empty_invariant _ (fun t : KotlinTestTarget => t.Files ≠ [])
              (fun acc x resx hPx hx =>
                addTestRule_ok_empty (toTestTargetName (x.Files.headD "")) x args acc resx hPx hx)
              _ result2 res ?_ h
            intro t ht
            have hmem : t ∈ st.testTargets :=
              (gosort.sortLe_perm
                (fun a b => gostrings.Le (a.Files.headD "") (b.Files.headD ""))
                st.testTargets).mem_iff.mp ht
            exact classify_testTargets_files_nonempty cfg parses initialGenState st
              (by intro t' ht'; cases ht') hcl t hmem
          rw [h3, h2, h1]

/-- C6 (counterexample): a directory with zero source files whose build
file already holds a `kt_jvm_library` named `root` (the default target
name) produces an entirely empty generation result — `Empty` contains no
deletion marker for the pre-existing rule, contrary to the claim. -/
theorem claim_deletion_marker_counterexample :
    GenerateRules kotlinconfig.New scenarios.argsWithExistingLibRule [] = .ok ⟨[], [], []⟩ :=
  rfl

/-- C6 (amended): the deletion-marker behaviour lives in `addLibraryRule`
alone — called on a zero-file target with a same-name same-kind rule
pre-existing (and no kind collision), it appends exactly the deletion
marker — but `GenerateRules` only invokes `addLibraryRule` when the
library target has at least one file, so a full generation pass never
emits a deletion marker: every successful `GenerateRules` result has an
empty `Empty` list. -/
theorem claim_deletion_marker_amended :
    (∀ (targetName : String) (target : KotlinLibTarget) (args : GenerateArgs)
        (result : GenerateResult) (f : RuleFile),
      target.Files = [] → args.File = some f →
      CheckCollisionErrors targetName KtJvmLibrary args.File = none →
      (f.Rules.any (fun r => r.name = targetName && r.kind = KtJvmLibrary)) = true →
      addLibraryRule targetName target args false result =
        .ok { result with Empty := result.Empty ++ [NewRule KtJvmLibrary targetName] }) ∧
    (∀ cfg args parses res, GenerateRules cfg args parses = .ok res → res.Empty = []) := by
  constructor
  · intro targetName target args result f hfiles hfile hcol hany
    unfold addLibraryRule
    rw [hcol, hfile]
    simp [hfiles, hany]
  · intro cfg args parses res h
    exact generateRules_empty_nil cfg args parses res h

/-- Witness for C6's amended theorem: `addLibraryRule` on the empty library
target against the build file holding `kt_jvm_library(name = root)` emits
the deletion marker, while the full `GenerateRules` pass on the same
directory emits nothing. -/
theorem claim_deletion_marker_amended_witness :
    NewKotlinLibTarget.Files = [] ∧
    scenarios.argsWithExistingLibRule.File = some ⟨[NewRule KtJvmLibrary "root"]⟩ ∧
    addLibraryRule "root" NewKotlinLibTarget scenarios.argsWithExistingLibRule false ⟨[], [], []⟩ =
      .ok ⟨[], [], [NewRule KtJvmLibrary "root"]⟩ ∧
    (GenerateRules kotlinconfig.New scenarios.argsWithExistingLibRule [] = .ok ⟨[], [], []⟩ →
      (⟨[], [], []⟩ : GenerateResult).Empty = []) :=
  ⟨rfl, rfl,
   claim_deletion_marker_amended.1 "root" NewKotlinLibTarget scenarios.argsWithExistingLibRule
     ⟨[], [], []⟩ ⟨[NewRule KtJvmLibrary "root"]⟩ rfl rfl rfl (by decide),
   fun h => claim_deletion_marker_amended.2 kotlinconfig.New scenarios.argsWithExistingLibRule [] ⟨[], [], []⟩ h⟩

end gazelle
